import Mathlib

/-!
# A shallow embedding of the `filestore` content-addressed store

This file embeds the core of the repository's `src/lib.rs` (together with
`src/error.rs` and `src/filekey.rs`) into Lean 4 and proves the frozen
claims about it.

Modelling decisions:

* A filesystem path is a list of components (`Path := List String`);
  `Path.join` from Rust becomes list append.
* The filesystem state `FS` holds the regular files (an association list
  from path to byte content), the set of existing directories, and a set
  of injected per-path I/O faults. The faults let us express the failure
  branches of the Rust code (`fs::metadata`, `File::open`,
  `fs::remove_file`, ... returning an error other than `NotFound`), which
  a fault-free pure model could never reach.
* Bytes are `Nat`s; machine `u32` arithmetic is explicit: the refcount
  increment in `store` is `(rc + 1) % 2^32` (release-mode wrapping), and
  the on-disk record is the 4-byte big-endian encoding.
* The SHA-224 hex digest is an abstract parameter `H : HashFn`; the
  `crypto` crate is an external collaborator. The streaming digest API is
  embedded faithfully: the `Sha224` state is the list of bytes absorbed so
  far (`absorbLoop` mirrors the 4096-byte read loop of
  `impl Hashable for PathBuf`), and `result_str` applies `H` to it.
* Rust panics (the byte slices `&key[..2]` / `&key[2..]`, which panic when
  the key is shorter than 2 bytes or byte index 2 is not a char boundary)
  are embedded as an explicit `PResult.panicked` outcome; `splitKey2`
  returns `none` exactly when the Rust slice would panic.
* Fallible operations return their result together with the filesystem
  state, since side effects before a failure persist.
-/

namespace Filestore

/-- A path is a list of components; `Path::join` is list append. -/
abbrev Path := List String

/-- File contents: a byte sequence (each byte a `Nat`, 0..255 in real
states). -/
abbrev Bytes := List Nat

/-! ## Rust string slicing at byte index 2

`storage_file_dir` evaluates `&key[..2]`, and the sibling functions
evaluate `&key[2..]`.  Rust slices strings by BYTE index and panics when
the index is out of range or not a character boundary.  `splitKey2`
returns `some (key[..2], key[2..])` when the slice succeeds and `none`
exactly when Rust would panic. -/
def splitKey2 (key : String) : Option (String × String) :=
  match key.toList with
  | [] => none
  | c :: rest =>
    if c.utf8Size = 2 then some (String.mk [c], String.mk rest)
    else if c.utf8Size = 1 then
      match rest with
      | [] => none
      | c2 :: rest2 =>
        if c2.utf8Size = 1 then some (String.mk [c, c2], String.mk rest2)
        else none
    else none

/-! ## Filesystem model -/

/-- The kind of an `io::Error` (`std::io::ErrorKind`), restricted to the
kinds the library inspects plus representatives of "any other kind". -/
inductive IoeKind where
  | notFound
  | alreadyExists
  | permissionDenied
  | other
  deriving DecidableEq, Repr

/-- Rust `ErrorKind` from `src/error.rs`: an I/O error carrying the underlying
`io::Error` kind, or the distinct `NotFound` outcome. -/
inductive EKind where
  | io (k : IoeKind)
  | notFound
  deriving DecidableEq, Repr

/-- Rust `Error` from `src/error.rs`: a kind plus a contextual message.
`From<io::Error>` produces an empty message; `From<(io::Error, &str)>`
produces the given context message. -/
structure Error where
  kind : EKind
  message : String
  deriving DecidableEq, Repr

/-- The filesystem: regular files (path ↦ contents), directories, and
injected per-path I/O faults (any primitive touching a faulted path fails
with the given kind). -/
structure FS where
  files : List (Path × Bytes)
  dirs : List Path
  errs : List (Path × IoeKind)
  deriving DecidableEq, Repr

/-- The injected fault at a path, if any. -/
def findFault (fs : FS) (p : Path) : Option IoeKind :=
  (fs.errs.find? (fun e => e.1 == p)).map (·.2)

/-- Contents of the regular file at a path, if present. -/
def lookupFile (fs : FS) (p : Path) : Option Bytes :=
  (fs.files.find? (fun e => e.1 == p)).map (·.2)

/-- Remove every binding for a path from a file list. -/
def removeAllFile (p : Path) (l : List (Path × Bytes)) : List (Path × Bytes) :=
  l.filter (fun e => !(e.1 == p))

/-- Create-or-replace the file at a path. -/
def insertFile (fs : FS) (p : Path) (bs : Bytes) : FS :=
  { fs with files := (p, bs) :: removeAllFile p fs.files }

/-- Remove the file at a path. -/
def eraseFile (fs : FS) (p : Path) : FS :=
  { fs with files := removeAllFile p fs.files }

/-- Whether a directory exists at a path. -/
def dirExists (fs : FS) (p : Path) : Bool :=
  fs.dirs.contains p

/-- Rust `fs::metadata`: succeeds iff something (file or directory) exists at
the path; a missing path yields `NotFound`; a faulted path yields its
fault. -/
def metadata (fs : FS) (p : Path) : Except IoeKind Unit :=
  match findFault fs p with
  | some k => .error k
  | none =>
    if (lookupFile fs p).isSome || dirExists fs p then .ok ()
    else .error .notFound

/-- Rust `fs::create_dir`: fails with `AlreadyExists` when the directory is
already there. -/
def create_dir (fs : FS) (p : Path) : FS × Except IoeKind Unit :=
  match findFault fs p with
  | some k => (fs, .error k)
  | none =>
    if dirExists fs p then (fs, .error .alreadyExists)
    else ({ fs with dirs := p :: fs.dirs }, .ok ())

/-- Rust `OpenOptions::new().create(true).write(true).truncate(true)` followed
by writing the whole buffer. -/
def writeFileAll (fs : FS) (p : Path) (bs : Bytes) : FS × Except IoeKind Unit :=
  match findFault fs p with
  | some k => (fs, .error k)
  | none => (insertFile fs p bs, .ok ())

/-- Rust `File::open` followed by `read_to_end`. -/
def readFileAll (fs : FS) (p : Path) : Except IoeKind Bytes :=
  match findFault fs p with
  | some k => .error k
  | none =>
    match lookupFile fs p with
    | some bs => .ok bs
    | none => .error .notFound

/-- Rust `fs::remove_file`. -/
def removeFile (fs : FS) (p : Path) : FS × Except IoeKind Unit :=
  match findFault fs p with
  | some k => (fs, .error k)
  | none =>
    if (lookupFile fs p).isSome then (eraseFile fs p, .ok ())
    else (fs, .error .notFound)

/-- Rust `fs::copy src dst`: read the source fully, write it to the
destination. -/
def copyFile (fs : FS) (src dst : Path) : FS × Except IoeKind Unit :=
  match readFileAll fs src with
  | .error k => (fs, .error k)
  | .ok bs => writeFileAll fs dst bs

/-! ## Outcomes

The library's fallible operations return `Result<_, Error>`, and the path
derivation can panic; `PResult` covers all three outcomes. -/

/-- The outcome of an operation: success, a returned `Error`, or a Rust
panic (from the byte slices `&key[..2]` / `&key[2..]`). -/
inductive PResult (α : Type) where
  | ok (a : α)
  | error (e : Error)
  | panicked
  deriving DecidableEq, Repr

/-! ## Big-endian `u32` records (`byteorder`) -/

/-- Rust `WriteBytesExt::write_u32::<BigEndian>`: the 4-byte big-endian
encoding of a `u32` value. -/
def toBE4 (n : Nat) : Bytes :=
  [n / 16777216 % 256, n / 65536 % 256, n / 256 % 256, n % 256]

/-- Rust `ReadBytesExt::read_u32::<BigEndian>` on a buffer known to hold at
least 4 bytes: the big-endian value of the first 4 bytes. -/
def fromBE4 (bs : Bytes) : Nat :=
  match bs with
  | b0 :: b1 :: b2 :: b3 :: _ => ((b0 * 256 + b1) * 256 + b2) * 256 + b3
  | _ => 0

/-! ## Key-to-path derivation (`storage_file_dir` and friends)

Each returns `none` exactly when the Rust original would panic slicing
the key. -/

/-- Source `storage_file_dir`: `storage_path.join(&key[..2])`. -/
def storage_file_dir (storage_path : Path) (key : String) : Option Path :=
  (splitKey2 key).map (fun q => storage_path ++ [q.1])

/-- Source `storage_file_name`: `key[2..].to_string()`. -/
def storage_file_name (key : String) : Option String :=
  (splitKey2 key).map (·.2)

/-- Source `storage_file_path`: `storage_file_dir.join(storage_file_name)`. -/
def storage_file_path (storage_path : Path) (key : String) : Option Path :=
  (splitKey2 key).map (fun q => storage_path ++ [q.1, q.2])

/-- Source `storage_refcount_name`: `key[2..].to_string() + ".refcount"`. -/
def storage_refcount_name (key : String) : Option String :=
  (splitKey2 key).map (fun q => q.2 ++ ".refcount")

/-- Source `storage_refcount_path`: `storage_file_dir.join(storage_refcount_name)`. -/
def storage_refcount_path (storage_path : Path) (key : String) : Option Path :=
  (splitKey2 key).map (fun q => storage_path ++ [q.1, q.2 ++ ".refcount"])

/-! ## The refcount ledger (`get_refcount` / `set_refcount`) -/

/-- Source `get_refcount`: probe the refcount path; `NotFound` ⇒ 0; otherwise
open and read a big-endian `u32`, where a record shorter than 4 bytes
(`byteorder::Error::UnexpectedEOF`) is tolerated as 0.  A non-`NotFound`
metadata failure is propagated through `From::from` (empty message); an
open failure is wrapped with "Unable to open refcount file". -/
def get_refcount (fs : FS) (storage_path : Path) (key : String) : PResult Nat :=
  match storage_refcount_path storage_path key with
  | none => .panicked
  | some rp =>
    match metadata fs rp with
    | .ok _ =>
      match findFault fs rp with
      | some k => .error ⟨.io k, "Unable to open refcount file"⟩
      | none =>
        match lookupFile fs rp with
        | some bs => if 4 ≤ bs.length then .ok (fromBE4 bs) else .ok 0
        | none => .error ⟨.io .notFound, "Unable to open refcount file"⟩
    | .error k =>
      if k = .notFound then .ok 0 else .error ⟨.io k, ""⟩

/-- Source `set_refcount`: count 0 ⇒ remove the refcount file (failure wrapped
with "Unable to remove refcount file"); count > 0 ⇒ create-or-truncate
and write the 4-byte big-endian record (open failure wrapped with
"Unable to open/create new refcount file"). -/
def set_refcount (fs : FS) (storage_path : Path) (key : String) (refcount : Nat) :
    FS × PResult Unit :=
  match storage_refcount_path storage_path key with
  | none => (fs, .panicked)
  | some rp =>
    if refcount < 1 then
      match removeFile fs rp with
      | (fs1, .ok _) => (fs1, .ok ())
      | (fs1, .error k) => (fs1, .error ⟨.io k, "Unable to remove refcount file"⟩)
    else
      match writeFileAll fs rp (toBE4 refcount) with
      | (fs1, .ok _) => (fs1, .ok ())
      | (fs1, .error k) => (fs1, .error ⟨.io k, "Unable to open/create new refcount file"⟩)

/-! ## Hashing (`trait Hashable`) -/

/-- The abstract SHA-224 lowercase-hex digest of a byte sequence (the
`crypto` crate is an external collaborator; `Sha224::result_str` applied
to everything fed to `Sha224::input`). -/
abbrev HashFn := Bytes → String

/-- The input to `store`: `Vec<u8>` (a buffer) or `PathBuf` (a reference
to an external file), the two `Storable + Hashable` implementations. -/
inductive StoreInput where
  | buffer (b : Bytes)
  | fileRef (p : Path)
  deriving DecidableEq, Repr

/-- The 4096-byte read loop of `impl Hashable for PathBuf`: the digest
state (bytes absorbed so far) after repeatedly reading up to 4096 bytes
and feeding them to `Sha224::input`, until a zero-length read. -/
def absorbLoop (absorbed : Bytes) (remaining : Bytes) : Bytes :=
  if remaining = [] then absorbed
  else absorbLoop (absorbed ++ remaining.take 4096) (remaining.drop 4096)
termination_by remaining.length
decreasing_by
  simp only [List.length_drop]
  have : remaining.length ≠ 0 := by
    intro h0
    exact (by assumption : ¬ remaining = []) (List.eq_nil_of_length_eq_zero h0)
  omega

/-- Source `Hashable::hash`: a buffer is hashed in one pass; a file is opened
(failure wrapped with "Cannot open content file for hashing") and
digested through the 4096-byte loop. -/
def hashInput (H : HashFn) (fs : FS) : StoreInput → PResult String
  | .buffer b => .ok (H b)
  | .fileRef p =>
    match findFault fs p with
    | some k => .error ⟨.io k, "Cannot open content file for hashing"⟩
    | none =>
      match lookupFile fs p with
      | none => .error ⟨.io .notFound, "Cannot open content file for hashing"⟩
      | some content => .ok (H (absorbLoop [] content))

/-! ## Persistence (`trait Storable`) -/

/-- Source `Storable::store`: a buffer is written whole to the destination
(create-or-truncate, failure wrapped with "Unable to open/creat new
file"); a file reference is byte-copied (`fs::copy`, failure wrapped with
"Unable to copy file"). -/
def storableStore (fs : FS) (input : StoreInput) (dest : Path) : FS × PResult Unit :=
  match input with
  | .buffer b =>
    match writeFileAll fs dest b with
    | (fs1, .ok _) => (fs1, .ok ())
    | (fs1, .error k) => (fs1, .error ⟨.io k, "Unable to open/creat new file"⟩)
  | .fileRef p =>
    match copyFile fs p dest with
    | (fs1, .ok _) => (fs1, .ok ())
    | (fs1, .error k) => (fs1, .error ⟨.io k, "Unable to copy file"⟩)

/-! ## The store engine (`store`, `store_data`, `store_file`,
`retrieve_data`, `retrieve_file`, `delete`) -/

/-- The tail of `store` (lines 178–182): read the current refcount,
increment it (`u32` release-mode wrapping), persist it, return the key. -/
def storeBumpRefcount (fs : FS) (storage_path : Path) (key : String) :
    FS × PResult String :=
  match get_refcount fs storage_path key with
  | .error e => (fs, .error e)
  | .panicked => (fs, .panicked)
  | .ok rc =>
    match set_refcount fs storage_path key ((rc + 1) % 4294967296) with
    | (fs1, .ok _) => (fs1, .ok key)
    | (fs1, .error e) => (fs1, .error e)
    | (fs1, .panicked) => (fs1, .panicked)

/-- The middle of `store` (lines 160–176): probe the content path; if it
exists, presume identical content (no hash collisions); if `NotFound`,
persist the input; any other probe failure is propagated through
`From::from` (empty message).  Then bump the refcount. -/
def storeContentAndCount (fs : FS) (storage_path : Path) (input : StoreInput)
    (key : String) : FS × PResult String :=
  match storage_file_path storage_path key with
  | none => (fs, .panicked)
  | some cpath =>
    match metadata fs cpath with
    | .ok _ => storeBumpRefcount fs storage_path key
    | .error k =>
      if k = .notFound then
        match storableStore fs input cpath with
        | (fs1, .ok _) => storeBumpRefcount fs1 storage_path key
        | (fs1, .error e) => (fs1, .error e)
        | (fs1, .panicked) => (fs1, .panicked)
      else (fs, .error ⟨.io k, ""⟩)

/-- Source `store` (lines 149–183): hash the input to get the key, create the
shard directory (tolerating `AlreadyExists`; any other creation failure
is propagated through `From::from`, empty message), store the content if
absent, and bump the refcount. -/
def store (H : HashFn) (fs : FS) (storage_path : Path) (input : StoreInput) :
    FS × PResult String :=
  match hashInput H fs input with
  | .error e => (fs, .error e)
  | .panicked => (fs, .panicked)
  | .ok key =>
    match storage_file_dir storage_path key with
    | none => (fs, .panicked)
    | some dir =>
      match create_dir fs dir with
      | (fs1, .ok _) => storeContentAndCount fs1 storage_path input key
      | (fs1, .error k) =>
        if k = .alreadyExists then storeContentAndCount fs1 storage_path input key
        else (fs1, .error ⟨.io k, ""⟩)

/-- Source `store_data`: store a buffer. -/
def store_data (H : HashFn) (fs : FS) (storage_path : Path) (input : Bytes) :
    FS × PResult String :=
  store H fs storage_path (.buffer input)

/-- Source `store_file`: store a copy of an external file. -/
def store_file (H : HashFn) (fs : FS) (storage_path : Path) (input : Path) :
    FS × PResult String :=
  store H fs storage_path (.fileRef input)

/-- Source `retrieve_data` (lines 198–210): probe the content path; ANY probe
failure yields `None`; otherwise read the file, ANY read failure also
yielding `None`. -/
def retrieve_data (fs : FS) (storage_path : Path) (key : String) :
    PResult (Option Bytes) :=
  match storage_file_path storage_path key with
  | none => .panicked
  | some cpath =>
    match metadata fs cpath with
    | .error _ => .ok none
    | .ok _ =>
      match readFileAll fs cpath with
      | .ok bs => .ok (some bs)
      | .error _ => .ok none

/-- Source `retrieve_file` (lines 213–225): like `retrieve_data` but the
`PathBuf` retrieval just returns the managed path. -/
def retrieve_file (fs : FS) (storage_path : Path) (key : String) :
    PResult (Option Path) :=
  match storage_file_path storage_path key with
  | none => .panicked
  | some cpath =>
    match metadata fs cpath with
    | .error _ => .ok none
    | .ok _ => .ok (some cpath)

/-- Source `delete` (lines 228–247): read the refcount; if already 0 return
success; otherwise decrement and persist; if the count reached 0, remove
the content file (failure wrapped with "Unable to remove file"). -/
def delete (fs : FS) (storage_path : Path) (key : String) : FS × PResult Unit :=
  match storage_file_path storage_path key with
  | none => (fs, .panicked)
  | some cpath =>
    match get_refcount fs storage_path key with
    | .error e => (fs, .error e)
    | .panicked => (fs, .panicked)
    | .ok rc =>
      if rc < 1 then (fs, .ok ())
      else
        match set_refcount fs storage_path key (rc - 1) with
        | (fs1, .error e) => (fs1, .error e)
        | (fs1, .panicked) => (fs1, .panicked)
        | (fs1, .ok _) =>
          if rc - 1 < 1 then
            match removeFile fs1 cpath with
            | (fs2, .ok _) => (fs2, .ok ())
            | (fs2, .error k) => (fs2, .error ⟨.io k, "Unable to remove file"⟩)
          else (fs1, .ok ())

/-! ## Observations used to state the claims -/

/-- The number of physical files stored at a path (the claims speak of
"exactly one physical content file"). -/
def countPath (fs : FS) (p : Path) : Nat :=
  (fs.files.filter (fun e => e.1 == p)).length

/-- Whether a path names a refcount record: its last component ends in
`".refcount"`. -/
def isRefcountName (p : Path) : Bool :=
  match p.getLast? with
  | some s => ".refcount".toList.isSuffixOf s.toList
  | none => false

/-- The on-disk refcount invariant: every present, complete (≥ 4 bytes)
refcount record holds a big-endian value of at least 1. -/
def refcountInvariant (fs : FS) : Prop :=
  ∀ e ∈ fs.files, isRefcountName e.1 = true → 4 ≤ e.2.length → 1 ≤ fromBE4 e.2

/-- Hash outputs that contain no `'.'` character (true of the lowercase
hex digests the library produces): a content file's name can then never
collide with a refcount record's name. -/
def dotFreeHash (H : HashFn) : Prop :=
  ∀ b : Bytes, '.' ∉ (H b).toList

/-- Well-formed byte contents: every stored byte is an actual octet. -/
def wfBytes (fs : FS) : Prop :=
  ∀ e ∈ fs.files, ∀ b ∈ e.2, b < 256

/-! ## Helper lemmas about the filesystem primitives -/

theorem find?_filter_of_imp {α : Type} (l : List α) (pred keep : α → Bool)
    (h : ∀ e, pred e = true → keep e = true) :
    (l.filter keep).find? pred = l.find? pred := by
  induction l with
  | nil => rfl
  | cons a l ih =>
    by_cases hk : keep a = true
    · by_cases hp : pred a = true
      · simp [List.filter_cons, hk, List.find?_cons, hp]
      · simp [List.filter_cons, hk, List.find?_cons, hp, ih]
    · have hp : pred a = false := by
        cases hpa : pred a
        · rfl
        · exact absurd (h a hpa) hk
      simp [List.filter_cons, hk, List.find?_cons, hp, ih]

theorem insertFile_errs (fs : FS) (p : Path) (bs : Bytes) :
    (insertFile fs p bs).errs = fs.errs := rfl

theorem insertFile_dirs (fs : FS) (p : Path) (bs : Bytes) :
    (insertFile fs p bs).dirs = fs.dirs := rfl

theorem eraseFile_errs (fs : FS) (p : Path) :
    (eraseFile fs p).errs = fs.errs := rfl

theorem eraseFile_dirs (fs : FS) (p : Path) :
    (eraseFile fs p).dirs = fs.dirs := rfl

theorem create_dir_files (fs : FS) (p : Path) :
    ((create_dir fs p).1).files = fs.files := by
  unfold create_dir
  split <;> first | rfl | (split <;> rfl)

theorem create_dir_errs (fs : FS) (p : Path) :
    ((create_dir fs p).1).errs = fs.errs := by
  unfold create_dir
  split <;> first | rfl | (split <;> rfl)

theorem findFault_congr {fs fs' : FS} (h : fs'.errs = fs.errs) (p : Path) :
    findFault fs' p = findFault fs p := by
  unfold findFault; rw [h]

theorem lookupFile_congr {fs fs' : FS} (h : fs'.files = fs.files) (p : Path) :
    lookupFile fs' p = lookupFile fs p := by
  unfold lookupFile; rw [h]

theorem lookupFile_insertFile_self (fs : FS) (p : Path) (bs : Bytes) :
    lookupFile (insertFile fs p bs) p = some bs := by
  simp [lookupFile, insertFile, List.find?_cons]

theorem lookupFile_insertFile_ne (fs : FS) {p q : Path} (bs : Bytes) (h : q ≠ p) :
    lookupFile (insertFile fs p bs) q = lookupFile fs q := by
  unfold lookupFile insertFile removeAllFile
  have hpq : (p == q) = false := by simp [beq_eq_false_iff_ne]; exact fun hh => h hh.symm
  simp only [List.find?_cons, hpq]
  rw [find?_filter_of_imp]
  intro e he
  have : e.1 = q := by simpa using he
  simp [this]
  exact h

theorem lookupFile_eraseFile_self (fs : FS) (p : Path) :
    lookupFile (eraseFile fs p) p = none := by
  unfold lookupFile eraseFile removeAllFile
  rw [List.find?_eq_none.mpr]
  · rfl
  · intro e he
    have := (List.mem_filter.mp he).2
    simpa using this

theorem lookupFile_eraseFile_ne (fs : FS) {p q : Path} (h : q ≠ p) :
    lookupFile (eraseFile fs p) q = lookupFile fs q := by
  unfold lookupFile eraseFile removeAllFile
  rw [find?_filter_of_imp]
  intro e he
  have : e.1 = q := by simpa using he
  simp [this]
  exact h

theorem countPath_insertFile_self (fs : FS) (p : Path) (bs : Bytes) :
    countPath (insertFile fs p bs) p = 1 := by
  unfold countPath insertFile removeAllFile
  simp only [List.filter_cons, beq_self_eq_true, if_pos]
  simp [List.filter_filter]

theorem countPath_insertFile_ne (fs : FS) {p q : Path} (bs : Bytes) (h : q ≠ p) :
    countPath (insertFile fs p bs) q = countPath fs q := by
  unfold countPath insertFile removeAllFile
  have hpq : (p == q) = false := by simp [beq_eq_false_iff_ne]; exact fun hh => h hh.symm
  simp only [List.filter_cons, hpq, if_neg, Bool.false_eq_true, not_false_iff,
    List.filter_filter]
  congr 1
  apply List.filter_congr
  intro e _
  by_cases he : e.1 = q
  · simp [he]
    exact h
  · simp [he]

theorem countPath_congr {fs fs' : FS} (h : fs'.files = fs.files) (p : Path) :
    countPath fs' p = countPath fs p := by
  unfold countPath; rw [h]

theorem dirExists_congr {fs fs' : FS} (h : fs'.dirs = fs.dirs) (p : Path) :
    dirExists fs' p = dirExists fs p := by
  unfold dirExists; rw [h]

theorem dirExists_create_dir (fs : FS) {p q : Path} (h : q ≠ p) :
    dirExists ((create_dir fs p).1) q = dirExists fs q := by
  unfold create_dir
  split
  · rfl
  · split
    · rfl
    · unfold dirExists
      simp only [List.contains_cons]
      have hqp : (q == p) = false := beq_eq_false_iff_ne.mpr h
      rw [hqp]
      simp

/-! ## Arithmetic of the big-endian record -/

theorem toBE4_length (m : Nat) : (toBE4 m).length = 4 := rfl

theorem fromBE4_toBE4 {m : Nat} (h : m < 4294967296) : fromBE4 (toBE4 m) = m := by
  unfold fromBE4 toBE4
  simp only []
  omega

/-! ## String and path facts -/

theorem refcount_suffix_ne (n : String) : ¬(n ++ ".refcount" = n) := by
  intro h
  have h2 : n.data ++ ".refcount".data = n.data := by
    rw [← String.data_append, h]
  rw [List.append_right_eq_self] at h2
  exact absurd h2 (by decide)

theorem cpath_ne_rpath (root : Path) (d n : String) :
    root ++ [d, n] ≠ root ++ [d, n ++ ".refcount"] := by
  intro h
  have h2 : ([d, n] : Path) = [d, n ++ ".refcount"] := by
    exact List.append_cancel_left h
  simp only [List.cons.injEq] at h2
  exact refcount_suffix_ne n h2.2.1.symm

theorem dir_ne_file (root : Path) (d x : String) :
    root ++ [d] ≠ root ++ [d, x] := by
  intro h
  have h2 := congrArg List.length h
  simp only [List.length_append, List.length_cons, List.length_nil] at h2
  omega

/-! ## The streaming digest -/

theorem absorbLoop_eq_aux (k : Nat) :
    ∀ remaining absorbed : Bytes, remaining.length ≤ k →
      absorbLoop absorbed remaining = absorbed ++ remaining := by
  induction k with
  | zero =>
    intro r a h
    have hr : r = [] := List.eq_nil_of_length_eq_zero (Nat.le_zero.mp h)
    subst hr
    rw [absorbLoop]
    simp
  | succ k ih =>
    intro r a h
    by_cases hr : r = []
    · subst hr; rw [absorbLoop]; simp
    · rw [absorbLoop]
      rw [if_neg hr]
      rw [ih]
      · rw [List.append_assoc, List.take_append_drop]
      · have : r.length ≠ 0 := fun h0 => hr (List.eq_nil_of_length_eq_zero h0)
        simp only [List.length_drop]; omega

/-- The chunked streaming digest absorbs exactly the file's contents. -/
theorem absorbLoop_eq (remaining absorbed : Bytes) :
    absorbLoop absorbed remaining = absorbed ++ remaining :=
  absorbLoop_eq_aux remaining.length remaining absorbed (Nat.le_refl _)

/-! ## Behaviour of the ledger and the store pipeline on pinned states -/

theorem get_refcount_absent (fs : FS) (root : Path) (key d n : String)
    (hsplit : splitKey2 key = some (d, n))
    (hf : findFault fs (root ++ [d, n ++ ".refcount"]) = none)
    (hl : lookupFile fs (root ++ [d, n ++ ".refcount"]) = none)
    (hd : dirExists fs (root ++ [d, n ++ ".refcount"]) = false) :
    get_refcount fs root key = .ok 0 := by
  simp [get_refcount, storage_refcount_path, hsplit, metadata, hf, hl, hd]

theorem get_refcount_present (fs : FS) (root : Path) (key d n : String) (bs : Bytes)
    (hsplit : splitKey2 key = some (d, n))
    (hf : findFault fs (root ++ [d, n ++ ".refcount"]) = none)
    (hl : lookupFile fs (root ++ [d, n ++ ".refcount"]) = some bs)
    (hlen : 4 ≤ bs.length) :
    get_refcount fs root key = .ok (fromBE4 bs) := by
  simp [get_refcount, storage_refcount_path, hsplit, metadata, hf, hl, hlen]

theorem set_refcount_pos (fs : FS) (root : Path) (key d n : String) (m : Nat)
    (hsplit : splitKey2 key = some (d, n)) (hm : 1 ≤ m)
    (hf : findFault fs (root ++ [d, n ++ ".refcount"]) = none) :
    set_refcount fs root key m
      = (insertFile fs (root ++ [d, n ++ ".refcount"]) (toBE4 m), .ok ()) := by
  have hm' : ¬ m < 1 := by omega
  simp [set_refcount, storage_refcount_path, hsplit, writeFileAll, hf, hm']

theorem set_refcount_zero (fs : FS) (root : Path) (key d n : String)
    (hsplit : splitKey2 key = some (d, n))
    (hf : findFault fs (root ++ [d, n ++ ".refcount"]) = none)
    (hl : (lookupFile fs (root ++ [d, n ++ ".refcount"])).isSome = true) :
    set_refcount fs root key 0
      = (eraseFile fs (root ++ [d, n ++ ".refcount"]), .ok ()) := by
  simp [set_refcount, storage_refcount_path, hsplit, removeFile, hf, hl]

theorem storeBumpRefcount_spec (fs : FS) (root : Path) (key d n : String) (rc : Nat)
    (hsplit : splitKey2 key = some (d, n))
    (hget : get_refcount fs root key = .ok rc) (hrc : rc + 1 < 4294967296)
    (hf : findFault fs (root ++ [d, n ++ ".refcount"]) = none) :
    storeBumpRefcount fs root key
      = (insertFile fs (root ++ [d, n ++ ".refcount"]) (toBE4 (rc + 1)), .ok key) := by
  unfold storeBumpRefcount
  rw [hget]
  simp only [Nat.mod_eq_of_lt hrc,
    set_refcount_pos fs root key d n (rc + 1) hsplit (by omega) hf]

theorem storeContentAndCount_fresh (fs : FS) (root : Path) (B : Bytes) (key d n : String)
    (hsplit : splitKey2 key = some (d, n))
    (hfc : findFault fs (root ++ [d, n]) = none)
    (hlc : lookupFile fs (root ++ [d, n]) = none)
    (hdc : dirExists fs (root ++ [d, n]) = false)
    (hfr : findFault fs (root ++ [d, n ++ ".refcount"]) = none)
    (hlr : lookupFile fs (root ++ [d, n ++ ".refcount"]) = none)
    (hdr : dirExists fs (root ++ [d, n ++ ".refcount"]) = false) :
    storeContentAndCount fs root (.buffer B) key
      = (insertFile (insertFile fs (root ++ [d, n]) B)
          (root ++ [d, n ++ ".refcount"]) (toBE4 1), .ok key) := by
  have hmeta : metadata fs (root ++ [d, n]) = .error .notFound := by
    simp [metadata, hfc, hlc, hdc]
  have hwrite : storableStore fs (.buffer B) (root ++ [d, n])
      = (insertFile fs (root ++ [d, n]) B, .ok ()) := by
    simp [storableStore, writeFileAll, hfc]
  have hget : get_refcount (insertFile fs (root ++ [d, n]) B) root key = .ok 0 := by
    apply get_refcount_absent _ _ _ d n hsplit
    · rw [findFault_congr (insertFile_errs ..)]; exact hfr
    · rw [lookupFile_insertFile_ne]
      · exact hlr
      · exact (cpath_ne_rpath root d n).symm
    · rw [dirExists_congr (insertFile_dirs ..)]; exact hdr
  have hbump := storeBumpRefcount_spec (insertFile fs (root ++ [d, n]) B) root key d n 0
    hsplit hget (by omega)
    (by rw [findFault_congr (insertFile_errs ..)]; exact hfr)
  unfold storeContentAndCount
  simp only [storage_file_path, hsplit, Option.map_some']
  rw [hmeta]
  simp only [reduceIte, hwrite]
  exact hbump

theorem storeContentAndCount_existing (fs : FS) (root : Path) (input : StoreInput)
    (key d n : String) (bsC : Bytes) (rc : Nat)
    (hsplit : splitKey2 key = some (d, n))
    (hfc : findFault fs (root ++ [d, n]) = none)
    (hlc : lookupFile fs (root ++ [d, n]) = some bsC)
    (hget : get_refcount fs root key = .ok rc) (hrc : rc + 1 < 4294967296)
    (hfr : findFault fs (root ++ [d, n ++ ".refcount"]) = none) :
    storeContentAndCount fs root input key
      = (insertFile fs (root ++ [d, n ++ ".refcount"]) (toBE4 (rc + 1)), .ok key) := by
  have hmeta : metadata fs (root ++ [d, n]) = .ok () := by
    simp [metadata, hfc, hlc]
  unfold storeContentAndCount
  simp only [storage_file_path, hsplit, Option.map_some']
  rw [hmeta]
  exact storeBumpRefcount_spec fs root key d n rc hsplit hget hrc hfr

theorem store_step_dir (H : HashFn) (fs : FS) (root : Path) (B : Bytes) (d n : String)
    (hsplit : splitKey2 (H B) = some (d, n))
    (hfd : findFault fs (root ++ [d]) = none) :
    store H fs root (.buffer B)
      = storeContentAndCount ((create_dir fs (root ++ [d])).1) root (.buffer B) (H B) := by
  have hsfd : storage_file_dir root (H B) = some (root ++ [d]) := by
    simp [storage_file_dir, hsplit]
  unfold store
  simp only [hashInput, hsfd]
  by_cases hde : dirExists fs (root ++ [d])
  · simp [create_dir, hfd, hde]
  · simp [create_dir, hfd, hde]

theorem store_fresh (H : HashFn) (fs : FS) (root : Path) (B : Bytes) (d n : String)
    (hsplit : splitKey2 (H B) = some (d, n))
    (hfd : findFault fs (root ++ [d]) = none)
    (hfc : findFault fs (root ++ [d, n]) = none)
    (hlc : lookupFile fs (root ++ [d, n]) = none)
    (hdc : dirExists fs (root ++ [d, n]) = false)
    (hfr : findFault fs (root ++ [d, n ++ ".refcount"]) = none)
    (hlr : lookupFile fs (root ++ [d, n ++ ".refcount"]) = none)
    (hdr : dirExists fs (root ++ [d, n ++ ".refcount"]) = false) :
    store H fs root (.buffer B)
      = (insertFile (insertFile ((create_dir fs (root ++ [d])).1) (root ++ [d, n]) B)
          (root ++ [d, n ++ ".refcount"]) (toBE4 1), .ok (H B)) := by
  rw [store_step_dir H fs root B d n hsplit hfd]
  exact storeContentAndCount_fresh _ root B (H B) d n hsplit
    (by rw [findFault_congr (create_dir_errs ..)]; exact hfc)
    (by rw [lookupFile_congr (create_dir_files ..)]; exact hlc)
    (by rw [dirExists_create_dir fs (dir_ne_file root d n).symm]; exact hdc)
    (by rw [findFault_congr (create_dir_errs ..)]; exact hfr)
    (by rw [lookupFile_congr (create_dir_files ..)]; exact hlr)
    (by rw [dirExists_create_dir fs (dir_ne_file root d (n ++ ".refcount")).symm]; exact hdr)

theorem store_existing (H : HashFn) (fs : FS) (root : Path) (B : Bytes) (d n : String)
    (bsC bsR : Bytes)
    (hsplit : splitKey2 (H B) = some (d, n))
    (hfd : findFault fs (root ++ [d]) = none)
    (hfc : findFault fs (root ++ [d, n]) = none)
    (hlc : lookupFile fs (root ++ [d, n]) = some bsC)
    (hfr : findFault fs (root ++ [d, n ++ ".refcount"]) = none)
    (hlr : lookupFile fs (root ++ [d, n ++ ".refcount"]) = some bsR)
    (hlen : 4 ≤ bsR.length)
    (hrc : fromBE4 bsR + 1 < 4294967296) :
    store H fs root (.buffer B)
      = (insertFile ((create_dir fs (root ++ [d])).1)
          (root ++ [d, n ++ ".refcount"]) (toBE4 (fromBE4 bsR + 1)), .ok (H B)) := by
  rw [store_step_dir H fs root B d n hsplit hfd]
  have hget : get_refcount ((create_dir fs (root ++ [d])).1) root (H B)
      = .ok (fromBE4 bsR) := by
    apply get_refcount_present _ root _ d n bsR hsplit
    · rw [findFault_congr (create_dir_errs ..)]; exact hfr
    · rw [lookupFile_congr (create_dir_files ..)]; exact hlr
    · exact hlen
  exact storeContentAndCount_existing _ root (.buffer B) (H B) d n bsC (fromBE4 bsR) hsplit
    (by rw [findFault_congr (create_dir_errs ..)]; exact hfc)
    (by rw [lookupFile_congr (create_dir_files ..)]; exact hlc)
    hget hrc
    (by rw [findFault_congr (create_dir_errs ..)]; exact hfr)

/-! ## Inversion lemmas: what a successful operation did to the state -/

theorem writeFileAll_ok_state {fs fs1 : FS} {p : Path} {bs : Bytes} {u : Unit}
    (h : writeFileAll fs p bs = (fs1, .ok u)) : fs1 = insertFile fs p bs := by
  unfold writeFileAll at h
  split at h
  · simp at h
  · simp at h; exact h.symm

theorem removeFile_ok_state {fs fs1 : FS} {p : Path} {u : Unit}
    (h : removeFile fs p = (fs1, .ok u)) : fs1 = eraseFile fs p := by
  unfold removeFile at h
  split at h
  · simp at h
  · split at h
    · simp at h; exact h.symm
    · simp at h

theorem copyFile_ok_state {fs fs1 : FS} {src dst : Path} {u : Unit}
    (h : copyFile fs src dst = (fs1, .ok u)) :
    ∃ bs, lookupFile fs src = some bs ∧ fs1 = insertFile fs dst bs := by
  unfold copyFile at h
  cases hr : readFileAll fs src with
  | error k => rw [hr] at h; simp at h
  | ok bs =>
    rw [hr] at h
    refine ⟨bs, ?_, writeFileAll_ok_state h⟩
    unfold readFileAll at hr
    split at hr
    · simp at hr
    · split at hr
      · next bs2 hbs =>
        simp at hr
        rw [← hr]
        exact hbs
      · simp at hr

theorem set_refcount_ok_state {fs fs1 : FS} {root : Path} {key d n : String} {m : Nat}
    {u : Unit} (hsplit : splitKey2 key = some (d, n))
    (h : set_refcount fs root key m = (fs1, .ok u)) :
    (1 ≤ m ∧ fs1 = insertFile fs (root ++ [d, n ++ ".refcount"]) (toBE4 m)) ∨
    fs1 = eraseFile fs (root ++ [d, n ++ ".refcount"]) := by
  unfold set_refcount at h
  simp only [storage_refcount_path, hsplit, Option.map_some'] at h
  split at h
  · right
    split at h
    · next heq =>
      simp at h
      rw [← h]
      exact removeFile_ok_state heq
    · simp at h
  · left
    refine ⟨by omega, ?_⟩
    split at h
    · next heq =>
      simp at h
      rw [← h]
      exact writeFileAll_ok_state heq
    · simp at h

theorem set_refcount_ok_elsewhere {fs fs1 : FS} {root : Path} {key d n : String}
    {m : Nat} {u : Unit} (hsplit : splitKey2 key = some (d, n))
    (h : set_refcount fs root key m = (fs1, .ok u)) :
    fs1.errs = fs.errs ∧ fs1.dirs = fs.dirs ∧
    ∀ q : Path, q ≠ root ++ [d, n ++ ".refcount"] → lookupFile fs1 q = lookupFile fs q := by
  rcases set_refcount_ok_state hsplit h with ⟨_, h1⟩ | h1 <;> subst h1
  · exact ⟨rfl, rfl, fun q hq => lookupFile_insertFile_ne fs _ hq⟩
  · exact ⟨rfl, rfl, fun q hq => lookupFile_eraseFile_ne fs hq⟩

theorem get_refcount_ok_split {fs : FS} {root : Path} {key : String} {rc : Nat}
    (h : get_refcount fs root key = .ok rc) : ∃ d n, splitKey2 key = some (d, n) := by
  unfold get_refcount storage_refcount_path at h
  cases hs : splitKey2 key with
  | none => rw [hs] at h; simp at h
  | some q => exact ⟨q.1, q.2, by rw [← hs]⟩

theorem get_refcount_ok_pos {fs : FS} {root : Path} {key d n : String} {rc : Nat}
    (hsplit : splitKey2 key = some (d, n))
    (h : get_refcount fs root key = .ok rc) (hpos : 1 ≤ rc) :
    ∃ bs, lookupFile fs (root ++ [d, n ++ ".refcount"]) = some bs ∧
      4 ≤ bs.length ∧ fromBE4 bs = rc ∧
      findFault fs (root ++ [d, n ++ ".refcount"]) = none := by
  unfold get_refcount at h
  simp only [storage_refcount_path, hsplit, Option.map_some'] at h
  split at h
  · split at h
    · simp at h
    · next hff =>
      split at h
      · next bs hbs =>
        split at h
        · next hlen =>
          simp at h
          exact ⟨bs, hbs, hlen, h, hff⟩
        · simp at h; omega
      · simp at h
  · split at h
    · simp at h; omega
    · simp at h

theorem storeBumpRefcount_ok_state {fs fs1 : FS} {root : Path} {key d n k : String}
    (hsplit : splitKey2 key = some (d, n))
    (h : storeBumpRefcount fs root key = (fs1, .ok k)) :
    k = key ∧
    ((∃ m, 1 ≤ m ∧ m < 4294967296 ∧
        fs1 = insertFile fs (root ++ [d, n ++ ".refcount"]) (toBE4 m)) ∨
      fs1 = eraseFile fs (root ++ [d, n ++ ".refcount"])) := by
  unfold storeBumpRefcount at h
  split at h
  · simp at h
  · simp at h
  · next rc _ =>
    split at h
    · next heq =>
      simp at h
      obtain ⟨h1, h2⟩ := h
      subst h1
      refine ⟨h2.symm ▸ rfl, ?_⟩
      rcases set_refcount_ok_state hsplit heq with ⟨hm, hst⟩ | hst
      · exact Or.inl ⟨(rc + 1) % 4294967296, hm, Nat.mod_lt _ (by omega), hst⟩
      · exact Or.inr hst
    · simp at h
    · simp at h

theorem storeBumpRefcount_ok_key {fs fs' : FS} {root : Path} {key k : String}
    (h : storeBumpRefcount fs root key = (fs', .ok k)) : k = key := by
  unfold storeBumpRefcount at h
  split at h
  · simp at h
  · simp at h
  · split at h
    · simp at h; exact h.2.symm
    · simp at h
    · simp at h

theorem storeContentAndCount_ok_key {fs fs' : FS} {root : Path} {input : StoreInput}
    {key k : String} (h : storeContentAndCount fs root input key = (fs', .ok k)) :
    k = key := by
  unfold storeContentAndCount at h
  split at h
  · simp at h
  · split at h
    · exact storeBumpRefcount_ok_key h
    · split at h
      · split at h
        · exact storeBumpRefcount_ok_key h
        · simp at h
        · simp at h
      · simp at h

theorem store_ok_hash {H : HashFn} {fs fs' : FS} {root : Path} {input : StoreInput}
    {k : String} (h : store H fs root input = (fs', .ok k)) :
    hashInput H fs input = .ok k := by
  unfold store at h
  split at h
  · simp at h
  · simp at h
  · next key heq =>
    split at h
    · simp at h
    · split at h
      · rw [heq, storeContentAndCount_ok_key h]
      · split at h
        · rw [heq, storeContentAndCount_ok_key h]
        · simp at h

/-! ## Claim C4: refcount floor -/

/-- C4: Refcount floor — for every key whose current refcount reads as 0
(refcount file absent or truncated), `delete` returns success, never an
error, and performs no further action: the filesystem state is returned
unchanged. -/
theorem refcount_floor_delete_noop (fs : FS) (root : Path) (key : String)
    (h : get_refcount fs root key = .ok 0) :
    delete fs root key = (fs, .ok ()) := by
  obtain ⟨d, n, hsp⟩ := get_refcount_ok_split h
  unfold delete
  simp only [storage_file_path, hsp, Option.map_some']
  rw [h]
  simp

/-- C4 witness: deleting a never-stored key from the empty store succeeds
and leaves the store untouched. -/
theorem refcount_floor_delete_noop_witness :
    delete ⟨[], [], []⟩ ["r"] "abcd" = (⟨[], [], []⟩, .ok ()) :=
  refcount_floor_delete_noop ⟨[], [], []⟩ ["r"] "abcd" (by decide)

/-! ## Claim C9: short or boundary-breaking keys panic -/

/-- C9: Key length is not enforced at the public boundary — `FileKey`
wraps a public `String`, and for every key on which the Rust slice
`&key[..2]` panics (string shorter than 2 bytes, or byte index 2 not a
character boundary — exactly the keys with `splitKey2 key = none`),
`retrieve_data`, `retrieve_file` and `delete` all panic instead of
returning `None` or an error. -/
theorem short_key_panics (fs : FS) (root : Path) (key : String)
    (h : splitKey2 key = none) :
    retrieve_data fs root key = .panicked ∧
    retrieve_file fs root key = .panicked ∧
    delete fs root key = (fs, .panicked) := by
  refine ⟨?_, ?_, ?_⟩ <;>
    simp [retrieve_data, retrieve_file, delete, storage_file_path, h]

/-- C9 witness: the one-byte key "x" (shorter than 2 bytes) makes all
three operations panic, and the two-character key "xß" (byte 2 inside the
two-byte character 'ß') does too. -/
theorem short_key_panics_witness :
    (retrieve_data ⟨[], [], []⟩ ["r"] "x" = .panicked ∧
      retrieve_file ⟨[], [], []⟩ ["r"] "x" = .panicked ∧
      delete ⟨[], [], []⟩ ["r"] "x" = (⟨[], [], []⟩, .panicked)) ∧
    (retrieve_data ⟨[], [], []⟩ ["r"] "xß" = .panicked ∧
      retrieve_file ⟨[], [], []⟩ ["r"] "xß" = .panicked ∧
      delete ⟨[], [], []⟩ ["r"] "xß" = (⟨[], [], []⟩, .panicked)) :=
  ⟨short_key_panics ⟨[], [], []⟩ ["r"] "x" (by decide),
    short_key_panics ⟨[], [], []⟩ ["r"] "xß" (by decide)⟩

/-! ## Claim C8: sharded path derivation -/

/-- C8 counterexample: the claim quantifies over every key of at least 2
CHARACTERS, but the code slices by BYTES.  For the 3-character key "ßab"
('ß' is 2 UTF-8 bytes) the derived directory is "ß" (the first byte pair
= first ONE character), not the first two characters "ßa"; and for the
2-character key "aß" the derivation panics outright instead of producing
a path. -/
theorem sharded_path_first_two_chars_cex :
    storage_file_path ["r"] "ßab"
        ≠ some (["r"] ++ [String.mk ("ßab".toList.take 2),
            String.mk ("ßab".toList.drop 2)]) ∧
    storage_file_path ["r"] "ßab" = some ["r", "ß", "ab"] ∧
    storage_file_path ["r"] "aß" = none := by
  refine ⟨by decide, by decide, by decide⟩

/-- C8 (amended): for every key whose first two characters are single
UTF-8 bytes — in particular every lowercase-hex key the library produces
— the content path is root joined with the first 2 characters as
directory and the rest as file name, and the refcount path is the same
with ".refcount" appended. -/
theorem sharded_path_derivation (root : Path) (c1 c2 : Char) (rest : List Char)
    (h1 : c1.utf8Size = 1) (h2 : c2.utf8Size = 1) :
    storage_file_path root (String.mk (c1 :: c2 :: rest))
        = some (root ++ [String.mk [c1, c2], String.mk rest]) ∧
    storage_refcount_path root (String.mk (c1 :: c2 :: rest))
        = some (root ++ [String.mk [c1, c2], String.mk rest ++ ".refcount"]) := by
  have hs : splitKey2 (String.mk (c1 :: c2 :: rest))
      = some (String.mk [c1, c2], String.mk rest) := by
    unfold splitKey2
    simp [String.toList, h1, h2]
  constructor <;> simp [storage_file_path, storage_refcount_path, hs]

/-- C8 witness: the key "abcdef01" derives content path
`<root>/ab/cdef01` and refcount path `<root>/ab/cdef01.refcount`. -/
theorem sharded_path_derivation_witness :
    storage_file_path ["root"] (String.mk ('a' :: 'b' :: "cdef01".toList))
        = some (["root"] ++ [String.mk ['a', 'b'], String.mk "cdef01".toList]) ∧
    storage_refcount_path ["root"] (String.mk ('a' :: 'b' :: "cdef01".toList))
        = some (["root"] ++ [String.mk ['a', 'b'],
            String.mk "cdef01".toList ++ ".refcount"]) :=
  sharded_path_derivation ["root"] 'a' 'b' "cdef01".toList (by decide) (by decide)

/-! ## Claim C6: key purity -/

/-- C6: Key purity — for every file whose contents are the byte sequence
B, hashing the file (streamed through the 4096-byte chunk loop) and
hashing the buffer B in one pass yield the same digest, and any
successful `store_file` on that file and any successful `store_data` on B
return that digest as the key: the caller-supplied path `p` never affects
the key. -/
theorem key_purity (H : HashFn) (fs : FS) (p : Path) (B : Bytes)
    (hf : findFault fs p = none) (hc : lookupFile fs p = some B) :
    hashInput H fs (.fileRef p) = .ok (H B) ∧
    hashInput H fs (.buffer B) = .ok (H B) ∧
    (∀ (root : Path) (fs' : FS) (k : String),
      store_file H fs root p = (fs', .ok k) → k = H B) ∧
    (∀ (root : Path) (fs' : FS) (k : String),
      store_data H fs root B = (fs', .ok k) → k = H B) := by
  have hh : hashInput H fs (.fileRef p) = .ok (H B) := by
    simp [hashInput, hf, hc, absorbLoop_eq]
  refine ⟨hh, rfl, ?_, ?_⟩
  · intro root fs' k hst
    have h2 := store_ok_hash hst
    rw [hh] at h2
    injection h2 with h3
    exact h3.symm
  · intro root fs' k hst
    have h2 := store_ok_hash hst
    injection h2 with h3
    exact h3.symm

/-- C6 witness: with a concrete digest function, a stored file of
contents [9, 8] hashes to the same key "abcd" as the buffer [9, 8], and a
concrete successful `store_file` returns exactly that key. -/
theorem key_purity_witness :
    hashInput (fun _ => "abcd") ⟨[(["t", "x"], [9, 8])], [], []⟩ (.fileRef ["t", "x"])
        = .ok "abcd" ∧
    hashInput (fun _ => "abcd") ⟨[(["t", "x"], [9, 8])], [], []⟩ (.buffer [9, 8])
        = .ok "abcd" ∧
    ("abcd" : String) = "abcd" :=
  ⟨(key_purity (fun _ => "abcd") ⟨[(["t", "x"], [9, 8])], [], []⟩ ["t", "x"] [9, 8]
      (by decide) (by decide)).1,
    (key_purity (fun _ => "abcd") ⟨[(["t", "x"], [9, 8])], [], []⟩ ["t", "x"] [9, 8]
      (by decide) (by decide)).2.1,
    (key_purity (fun _ => "abcd") ⟨[(["t", "x"], [9, 8])], [], []⟩ ["t", "x"] [9, 8]
      (by decide) (by decide)).2.2.1 ["r"]
      ⟨[(["r", "ab", "cd.refcount"], [0, 0, 0, 1]), (["r", "ab", "cd"], [9, 8]),
        (["t", "x"], [9, 8])], [["r", "ab"]], []⟩ "abcd" (by decide)⟩

/-! ## Claim C1: deduplication -/

theorem storeContentAndCount_fileRef_eq_buffer (fs : FS) (root p : Path) (B : Bytes)
    (key d n : String)
    (hsplit : splitKey2 key = some (d, n))
    (hfc : findFault fs (root ++ [d, n]) = none)
    (hfp : findFault fs p = none)
    (hlp : lookupFile fs p = some B) :
    storeContentAndCount fs root (.fileRef p) key
      = storeContentAndCount fs root (.buffer B) key := by
  have hss : storableStore fs (.fileRef p) (root ++ [d, n])
      = storableStore fs (.buffer B) (root ++ [d, n]) := by
    simp [storableStore, copyFile, readFileAll, writeFileAll, hfc, hfp, hlp]
  unfold storeContentAndCount
  simp only [storage_file_path, hsplit, Option.map_some']
  rw [hss]

theorem store_fileRef_eq_buffer (H : HashFn) (fs : FS) (root p : Path) (B : Bytes)
    (d n : String)
    (hsplit : splitKey2 (H B) = some (d, n))
    (hfc : findFault fs (root ++ [d, n]) = none)
    (hfp : findFault fs p = none)
    (hlp : lookupFile fs p = some B) :
    store H fs root (.fileRef p) = store H fs root (.buffer B) := by
  have hh : hashInput H fs (.fileRef p) = .ok (H B) := by
    simp [hashInput, hfp, hlp, absorbLoop_eq]
  unfold store
  rw [hh]
  simp only [hashInput, storage_file_dir, hsplit, Option.map_some']
  cases hcd : create_dir fs (root ++ [d]) with
  | mk fsd r =>
    have hfst : (create_dir fs (root ++ [d])).1 = fsd := by rw [hcd]
    have herrs : fsd.errs = fs.errs := by rw [← hfst, create_dir_errs]
    have hfiles : fsd.files = fs.files := by rw [← hfst, create_dir_files]
    have hscc := storeContentAndCount_fileRef_eq_buffer fsd root p B (H B) d n hsplit
      (by rw [findFault_congr herrs]; exact hfc)
      (by rw [findFault_congr herrs]; exact hfp)
      (by rw [lookupFile_congr hfiles]; exact hlp)
    cases r with
    | ok u =>
      show storeContentAndCount fsd root (.fileRef p) (H B)
          = storeContentAndCount fsd root (.buffer B) (H B)
      exact hscc
    | error k =>
      show (if k = .alreadyExists then storeContentAndCount fsd root (.fileRef p) (H B)
          else (fsd, .error ⟨.io k, ""⟩))
        = (if k = .alreadyExists then storeContentAndCount fsd root (.buffer B) (H B)
          else (fsd, .error ⟨.io k, ""⟩))
      rw [hscc]

theorem dedup_store_general (H : HashFn) (fs : FS) (root p : Path) (B : Bytes)
    (d n : String) (input1 input2 : StoreInput)
    (hsplit : splitKey2 (H B) = some (d, n))
    (hfd : findFault fs (root ++ [d]) = none)
    (hfc : findFault fs (root ++ [d, n]) = none)
    (hlc : lookupFile fs (root ++ [d, n]) = none)
    (hdc : dirExists fs (root ++ [d, n]) = false)
    (hfr : findFault fs (root ++ [d, n ++ ".refcount"]) = none)
    (hlr : lookupFile fs (root ++ [d, n ++ ".refcount"]) = none)
    (hdr : dirExists fs (root ++ [d, n ++ ".refcount"]) = false)
    (hfp : findFault fs p = none)
    (hlp : lookupFile fs p = some B)
    (h1 : input1 = .buffer B ∨ input1 = .fileRef p)
    (h2 : input2 = .buffer B ∨ input2 = .fileRef p) :
    ∃ fs1 fs2 : FS,
      store H fs root input1 = (fs1, .ok (H B)) ∧
      store H fs1 root input2 = (fs2, .ok (H B)) ∧
      countPath fs2 (root ++ [d, n]) = 1 ∧
      lookupFile fs2 (root ++ [d, n]) = some B ∧
      get_refcount fs2 root (H B) = .ok 2 := by
  have hne : root ++ [d, n] ≠ root ++ [d, n ++ ".refcount"] := cpath_ne_rpath root d n
  have hpc : p ≠ root ++ [d, n] := by
    intro he
    rw [he, hlc] at hlp
    simp at hlp
  have hpr : p ≠ root ++ [d, n ++ ".refcount"] := by
    intro he
    rw [he, hlr] at hlp
    simp at hlp
  -- either store on the source file equals the store on the buffer
  have he1 : store H fs root input1 = store H fs root (.buffer B) := by
    rcases h1 with h | h
    · rw [h]
    · rw [h]
      exact store_fileRef_eq_buffer H fs root p B d n hsplit hfc hfp hlp
  -- first store: fresh content
  have hst1 := store_fresh H fs root B d n hsplit hfd hfc hlc hdc hfr hlr hdr
  set fsd := (create_dir fs (root ++ [d])).1 with hfsd
  set fs1 := insertFile (insertFile fsd (root ++ [d, n]) B)
    (root ++ [d, n ++ ".refcount"]) (toBE4 1) with hfs1
  -- facts about fs1
  have herrs1 : fs1.errs = fs.errs := by
    rw [hfs1, insertFile_errs, insertFile_errs, hfsd, create_dir_errs]
  have hfc1 : findFault fs1 (root ++ [d, n]) = none := by
    rw [findFault_congr herrs1]; exact hfc
  have hlc1 : lookupFile fs1 (root ++ [d, n]) = some B := by
    rw [hfs1, lookupFile_insertFile_ne _ _ hne, lookupFile_insertFile_self]
  have hlr1 : lookupFile fs1 (root ++ [d, n ++ ".refcount"]) = some (toBE4 1) :=
    lookupFile_insertFile_self ..
  have hfp1 : findFault fs1 p = none := by
    rw [findFault_congr herrs1]; exact hfp
  have hlp1 : lookupFile fs1 p = some B := by
    rw [hfs1, lookupFile_insertFile_ne _ _ hpr, lookupFile_insertFile_ne _ _ hpc,
      lookupFile_congr (show fsd.files = fs.files from by rw [hfsd, create_dir_files])]
    exact hlp
  have he2 : store H fs1 root input2 = store H fs1 root (.buffer B) := by
    rcases h2 with h | h
    · rw [h]
    · rw [h]
      exact store_fileRef_eq_buffer H fs1 root p B d n hsplit hfc1 hfp1 hlp1
  -- second store: content exists
  have hst2 := store_existing H fs1 root B d n B (toBE4 1) hsplit
    (by rw [findFault_congr herrs1]; exact hfd)
    hfc1
    hlc1
    (by rw [findFault_congr herrs1]; exact hfr)
    hlr1
    (by rw [toBE4_length])
    (by rw [fromBE4_toBE4 (by omega)]; omega)
  rw [fromBE4_toBE4 (by omega)] at hst2
  set fsd1 := (create_dir fs1 (root ++ [d])).1 with hfsd1
  set fs2 := insertFile fsd1 (root ++ [d, n ++ ".refcount"]) (toBE4 2) with hfs2
  refine ⟨fs1, fs2, ?_, ?_, ?_, ?_, ?_⟩
  · rw [he1]; exact hst1
  · rw [he2]; exact hst2
  · -- exactly one physical content file
    rw [hfs2, countPath_insertFile_ne _ _ hne,
      countPath_congr (show fsd1.files = fs1.files from by rw [hfsd1, create_dir_files]),
      hfs1, countPath_insertFile_ne _ _ hne, countPath_insertFile_self]
  · -- its contents are B
    rw [hfs2, lookupFile_insertFile_ne _ _ hne,
      lookupFile_congr (show fsd1.files = fs1.files from by rw [hfsd1, create_dir_files]),
      hlc1]
  · -- refcount record reads 2
    have hres := get_refcount_present fs2 root (H B) d n (toBE4 2) hsplit
      (by
        rw [findFault_congr (show fs2.errs = fs.errs from by
          rw [hfs2, insertFile_errs, hfsd1, create_dir_errs, herrs1])]
        exact hfr)
      (by rw [hfs2]; exact lookupFile_insertFile_self ..)
      (by rw [toBE4_length])
    rw [fromBE4_toBE4 (by omega)] at hres
    exact hres

/-- C1: Deduplication — storing the same content B twice into the same
root, via `store_data` on B or via `store_file` on a file containing B,
in every combination, returns the same key H(B) both times, leaves
exactly one physical content file for that key (holding B), and leaves
the refcount record for that key equal to 2 (starting from any
fault-free state in which B's content and refcount files are absent and
the source file holds B). -/
theorem dedup_store_twice (H : HashFn) (fs : FS) (root p : Path) (B : Bytes)
    (d n : String)
    (hsplit : splitKey2 (H B) = some (d, n))
    (hfd : findFault fs (root ++ [d]) = none)
    (hfc : findFault fs (root ++ [d, n]) = none)
    (hlc : lookupFile fs (root ++ [d, n]) = none)
    (hdc : dirExists fs (root ++ [d, n]) = false)
    (hfr : findFault fs (root ++ [d, n ++ ".refcount"]) = none)
    (hlr : lookupFile fs (root ++ [d, n ++ ".refcount"]) = none)
    (hdr : dirExists fs (root ++ [d, n ++ ".refcount"]) = false)
    (hfp : findFault fs p = none)
    (hlp : lookupFile fs p = some B) :
    (∃ fs1 fs2 : FS,
      store_data H fs root B = (fs1, .ok (H B)) ∧
      store_data H fs1 root B = (fs2, .ok (H B)) ∧
      countPath fs2 (root ++ [d, n]) = 1 ∧
      lookupFile fs2 (root ++ [d, n]) = some B ∧
      get_refcount fs2 root (H B) = .ok 2) ∧
    (∃ fs1 fs2 : FS,
      store_data H fs root B = (fs1, .ok (H B)) ∧
      store_file H fs1 root p = (fs2, .ok (H B)) ∧
      countPath fs2 (root ++ [d, n]) = 1 ∧
      lookupFile fs2 (root ++ [d, n]) = some B ∧
      get_refcount fs2 root (H B) = .ok 2) ∧
    (∃ fs1 fs2 : FS,
      store_file H fs root p = (fs1, .ok (H B)) ∧
      store_data H fs1 root B = (fs2, .ok (H B)) ∧
      countPath fs2 (root ++ [d, n]) = 1 ∧
      lookupFile fs2 (root ++ [d, n]) = some B ∧
      get_refcount fs2 root (H B) = .ok 2) ∧
    (∃ fs1 fs2 : FS,
      store_file H fs root p = (fs1, .ok (H B)) ∧
      store_file H fs1 root p = (fs2, .ok (H B)) ∧
      countPath fs2 (root ++ [d, n]) = 1 ∧
      lookupFile fs2 (root ++ [d, n]) = some B ∧
      get_refcount fs2 root (H B) = .ok 2) :=
  ⟨dedup_store_general H fs root p B d n (.buffer B) (.buffer B) hsplit
      hfd hfc hlc hdc hfr hlr hdr hfp hlp (Or.inl rfl) (Or.inl rfl),
    dedup_store_general H fs root p B d n (.buffer B) (.fileRef p) hsplit
      hfd hfc hlc hdc hfr hlr hdr hfp hlp (Or.inl rfl) (Or.inr rfl),
    dedup_store_general H fs root p B d n (.fileRef p) (.buffer B) hsplit
      hfd hfc hlc hdc hfr hlr hdr hfp hlp (Or.inr rfl) (Or.inl rfl),
    dedup_store_general H fs root p B d n (.fileRef p) (.fileRef p) hsplit
      hfd hfc hlc hdc hfr hlr hdr hfp hlp (Or.inr rfl) (Or.inr rfl)⟩

/-- C1 witness: with a concrete digest function, an external file
["t", "x"] holding [1, 2, 3] and the buffer [1, 2, 3] stored twice into a
fresh root in all four `store_data`/`store_file` combinations return the
key "abcd" both times, with one content file and refcount 2. -/
theorem dedup_store_twice_witness :
    (∃ fs1 fs2 : FS,
      store_data (fun _ => "abcd") ⟨[(["t", "x"], [1, 2, 3])], [], []⟩ ["r"] [1, 2, 3]
          = (fs1, .ok "abcd") ∧
      store_data (fun _ => "abcd") fs1 ["r"] [1, 2, 3] = (fs2, .ok "abcd") ∧
      countPath fs2 ["r", "ab", "cd"] = 1 ∧
      lookupFile fs2 ["r", "ab", "cd"] = some [1, 2, 3] ∧
      get_refcount fs2 ["r"] "abcd" = .ok 2) ∧
    (∃ fs1 fs2 : FS,
      store_data (fun _ => "abcd") ⟨[(["t", "x"], [1, 2, 3])], [], []⟩ ["r"] [1, 2, 3]
          = (fs1, .ok "abcd") ∧
      store_file (fun _ => "abcd") fs1 ["r"] ["t", "x"] = (fs2, .ok "abcd") ∧
      countPath fs2 ["r", "ab", "cd"] = 1 ∧
      lookupFile fs2 ["r", "ab", "cd"] = some [1, 2, 3] ∧
      get_refcount fs2 ["r"] "abcd" = .ok 2) ∧
    (∃ fs1 fs2 : FS,
      store_file (fun _ => "abcd") ⟨[(["t", "x"], [1, 2, 3])], [], []⟩ ["r"] ["t", "x"]
          = (fs1, .ok "abcd") ∧
      store_data (fun _ => "abcd") fs1 ["r"] [1, 2, 3] = (fs2, .ok "abcd") ∧
      countPath fs2 ["r", "ab", "cd"] = 1 ∧
      lookupFile fs2 ["r", "ab", "cd"] = some [1, 2, 3] ∧
      get_refcount fs2 ["r"] "abcd" = .ok 2) ∧
    (∃ fs1 fs2 : FS,
      store_file (fun _ => "abcd") ⟨[(["t", "x"], [1, 2, 3])], [], []⟩ ["r"] ["t", "x"]
          = (fs1, .ok "abcd") ∧
      store_file (fun _ => "abcd") fs1 ["r"] ["t", "x"] = (fs2, .ok "abcd") ∧
      countPath fs2 ["r", "ab", "cd"] = 1 ∧
      lookupFile fs2 ["r", "ab", "cd"] = some [1, 2, 3] ∧
      get_refcount fs2 ["r"] "abcd" = .ok 2) :=
  dedup_store_twice (fun _ => "abcd") ⟨[(["t", "x"], [1, 2, 3])], [], []⟩ ["r"]
    ["t", "x"] [1, 2, 3] "ab" "cd"
    (by decide) (by decide) (by decide) (by decide) (by decide) (by decide)
    (by decide) (by decide) (by decide) (by decide)

/-! ## Claim C2: round-trip retrieval -/

theorem retrieve_data_some_spec (fs : FS) (root : Path) (key d n : String) (B : Bytes)
    (hsplit : splitKey2 key = some (d, n))
    (hf : findFault fs (root ++ [d, n]) = none)
    (hl : lookupFile fs (root ++ [d, n]) = some B) :
    retrieve_data fs root key = .ok (some B) := by
  simp [retrieve_data, storage_file_path, hsplit, metadata, hf, hl, readFileAll]

theorem retrieve_data_none_spec (fs : FS) (root : Path) (key d n : String)
    (hsplit : splitKey2 key = some (d, n))
    (hf : findFault fs (root ++ [d, n]) = none)
    (hl : lookupFile fs (root ++ [d, n]) = none)
    (hd : dirExists fs (root ++ [d, n]) = false) :
    retrieve_data fs root key = .ok none := by
  simp [retrieve_data, storage_file_path, hsplit, metadata, hf, hl, hd]

theorem metadata_ok_inv {fs : FS} {p : Path} (h : metadata fs p = .ok ()) :
    findFault fs p = none ∧
    ((lookupFile fs p).isSome = true ∨ dirExists fs p = true) := by
  unfold metadata at h
  split at h
  · simp at h
  · next hff =>
    split at h
    · next hcond => exact ⟨hff, by simpa using hcond⟩
    · simp at h

theorem storableStore_buffer_ok {fs fs1 : FS} {B : Bytes} {dest : Path} {u : Unit}
    (h : storableStore fs (.buffer B) dest = (fs1, .ok u)) :
    fs1 = insertFile fs dest B ∧ findFault fs dest = none := by
  unfold storableStore at h
  split at h
  · next b heq =>
    injection heq with hb
    subst hb
    split at h
    · next heq2 =>
      simp at h
      rw [← h]
      refine ⟨writeFileAll_ok_state heq2, ?_⟩
      unfold writeFileAll at heq2
      split at heq2
      · simp at heq2
      · next hff => exact hff
    · simp at h
  · next p heq =>
    exact absurd heq (by simp)

theorem storeBumpRefcount_ok_preserves {fs fs1 : FS} {root : Path} {key d n k : String}
    (hsplit : splitKey2 key = some (d, n))
    (h : storeBumpRefcount fs root key = (fs1, .ok k)) :
    fs1.errs = fs.errs ∧ fs1.dirs = fs.dirs ∧
    ∀ q : Path, q ≠ root ++ [d, n ++ ".refcount"] → lookupFile fs1 q = lookupFile fs q := by
  rcases (storeBumpRefcount_ok_state hsplit h).2 with ⟨m, _, _, hst⟩ | hst <;> subst hst
  · exact ⟨rfl, rfl, fun q hq => lookupFile_insertFile_ne fs _ hq⟩
  · exact ⟨rfl, rfl, fun q hq => lookupFile_eraseFile_ne fs hq⟩

theorem storeContentAndCount_ok_retrieve (fs' fs1 : FS) (root : Path) (B : Bytes)
    (key d n : String)
    (hsplit : splitKey2 key = some (d, n))
    (hdc : dirExists fs' (root ++ [d, n]) = false)
    (hpre : lookupFile fs' (root ++ [d, n]) = none ∨
      lookupFile fs' (root ++ [d, n]) = some B)
    (h : storeContentAndCount fs' root (.buffer B) key = (fs1, .ok key)) :
    retrieve_data fs1 root key = .ok (some B) := by
  have hne : root ++ [d, n] ≠ root ++ [d, n ++ ".refcount"] := cpath_ne_rpath root d n
  unfold storeContentAndCount at h
  simp only [storage_file_path, hsplit, Option.map_some'] at h
  split at h
  · -- content path already exists: no collision means it holds B
    next hm =>
    obtain ⟨hff, hex⟩ := metadata_ok_inv hm
    have hsome : lookupFile fs' (root ++ [d, n]) = some B := by
      rcases hex with hex | hex
      · rcases hpre with hp | hp
        · rw [hp] at hex; simp at hex
        · exact hp
      · rw [hdc] at hex; simp at hex
    obtain ⟨herrs, _, hlook⟩ := storeBumpRefcount_ok_preserves hsplit h
    exact retrieve_data_some_spec fs1 root key d n B hsplit
      (by rw [findFault_congr herrs]; exact hff)
      (by rw [hlook _ hne]; exact hsome)
  · -- content path absent: the buffer was written
    next hm =>
    split at h
    · split at h
      · next heq =>
        obtain ⟨hX, hffX⟩ := storableStore_buffer_ok heq
        subst hX
        obtain ⟨herrs, _, hlook⟩ := storeBumpRefcount_ok_preserves hsplit h
        exact retrieve_data_some_spec fs1 root key d n B hsplit
          (by rw [findFault_congr herrs, findFault_congr (insertFile_errs ..)]; exact hffX)
          (by rw [hlook _ hne]; exact lookupFile_insertFile_self ..)
      · simp at h
      · simp at h
    · simp at h

/-- C2: Round-trip retrieval — whenever `store_data root B` returns a key
k successfully (from any state where B's content path is not a directory
and holds nothing or already holds exactly B — the no-collision
condition dedup relies on), k is the content digest H(B), and every
subsequent `retrieve_data root k` with no intervening delete returns
`Some B`, the bytes unchanged (`retrieve_data` itself never modifies the
state, so repeated calls agree). -/
theorem roundtrip_retrieve (H : HashFn) (fs fs1 : FS) (root : Path) (B : Bytes)
    (d n k : String)
    (hsplit : splitKey2 (H B) = some (d, n))
    (hdc : dirExists fs (root ++ [d, n]) = false)
    (hpre : lookupFile fs (root ++ [d, n]) = none ∨
      lookupFile fs (root ++ [d, n]) = some B)
    (hstore : store_data H fs root B = (fs1, .ok k)) :
    k = H B ∧ retrieve_data fs1 root k = .ok (some B) := by
  have hk : k = H B := by
    have h2 := store_ok_hash hstore
    injection h2 with h3
    exact h3.symm
  subst hk
  refine ⟨rfl, ?_⟩
  unfold store_data store at hstore
  simp only [hashInput, storage_file_dir, hsplit, Option.map_some'] at hstore
  split at hstore
  · next fsd u heq =>
    have hfst : (create_dir fs (root ++ [d])).1 = fsd := by rw [heq]
    have hfiles : fsd.files = fs.files := by rw [← hfst, create_dir_files]
    have hdirs : dirExists fsd (root ++ [d, n]) = false := by
      rw [← hfst, dirExists_create_dir fs (dir_ne_file root d n).symm]
      exact hdc
    have hpre' : lookupFile fsd (root ++ [d, n]) = none ∨
        lookupFile fsd (root ++ [d, n]) = some B := by
      rw [lookupFile_congr hfiles]; exact hpre
    exact storeContentAndCount_ok_retrieve fsd fs1 root B (H B) d n hsplit
      hdirs hpre' hstore
  · next fsd k' heq =>
    have hfst : (create_dir fs (root ++ [d])).1 = fsd := by rw [heq]
    have hfiles : fsd.files = fs.files := by rw [← hfst, create_dir_files]
    have hdirs : dirExists fsd (root ++ [d, n]) = false := by
      rw [← hfst, dirExists_create_dir fs (dir_ne_file root d n).symm]
      exact hdc
    have hpre' : lookupFile fsd (root ++ [d, n]) = none ∨
        lookupFile fsd (root ++ [d, n]) = some B := by
      rw [lookupFile_congr hfiles]; exact hpre
    split at hstore
    · exact storeContentAndCount_ok_retrieve fsd fs1 root B (H B) d n hsplit
        hdirs hpre' hstore
    · simp at hstore

/-- C2 witness: a concrete successful store of [1, 2, 3] into the empty
store returns the digest key and retrieval returns exactly [1, 2, 3]. -/
theorem roundtrip_retrieve_witness :
    ("abcd" : String) = "abcd" ∧
    retrieve_data ⟨[(["r", "ab", "cd.refcount"], [0, 0, 0, 1]),
      (["r", "ab", "cd"], [1, 2, 3])], [["r", "ab"]], []⟩ ["r"] "abcd"
        = .ok (some [1, 2, 3]) :=
  roundtrip_retrieve (fun _ => "abcd") ⟨[], [], []⟩
    ⟨[(["r", "ab", "cd.refcount"], [0, 0, 0, 1]),
      (["r", "ab", "cd"], [1, 2, 3])], [["r", "ab"]], []⟩
    ["r"] [1, 2, 3] "ab" "cd" "abcd" (by decide) (by decide) (Or.inl (by decide))
    (by decide)

/-! ## Claim C3: full lifecycle -/

/-- C3: Full lifecycle — for content stored exactly once (refcount 1,
starting from a fault-free state with neither file present), a single
`delete` succeeds, removes both the content file and the refcount file,
and a subsequent `retrieve_data` returns the not-found outcome `None`. -/
theorem full_lifecycle (H : HashFn) (fs : FS) (root : Path) (B : Bytes) (d n : String)
    (hsplit : splitKey2 (H B) = some (d, n))
    (hfd : findFault fs (root ++ [d]) = none)
    (hfc : findFault fs (root ++ [d, n]) = none)
    (hlc : lookupFile fs (root ++ [d, n]) = none)
    (hdc : dirExists fs (root ++ [d, n]) = false)
    (hfr : findFault fs (root ++ [d, n ++ ".refcount"]) = none)
    (hlr : lookupFile fs (root ++ [d, n ++ ".refcount"]) = none)
    (hdr : dirExists fs (root ++ [d, n ++ ".refcount"]) = false) :
    ∃ fs1 fs2 : FS,
      store_data H fs root B = (fs1, .ok (H B)) ∧
      delete fs1 root (H B) = (fs2, .ok ()) ∧
      lookupFile fs2 (root ++ [d, n]) = none ∧
      lookupFile fs2 (root ++ [d, n ++ ".refcount"]) = none ∧
      retrieve_data fs2 root (H B) = .ok none := by
  have hne : root ++ [d, n] ≠ root ++ [d, n ++ ".refcount"] := cpath_ne_rpath root d n
  have h1 := store_fresh H fs root B d n hsplit hfd hfc hlc hdc hfr hlr hdr
  set fsd := (create_dir fs (root ++ [d])).1 with hfsd
  set fs1 := insertFile (insertFile fsd (root ++ [d, n]) B)
    (root ++ [d, n ++ ".refcount"]) (toBE4 1) with hfs1
  set fs2 := eraseFile (eraseFile fs1 (root ++ [d, n ++ ".refcount"])) (root ++ [d, n])
    with hfs2
  have herrs1 : fs1.errs = fs.errs := by
    rw [hfs1, insertFile_errs, insertFile_errs, hfsd, create_dir_errs]
  have hfc1 : findFault fs1 (root ++ [d, n]) = none := by
    rw [findFault_congr herrs1]; exact hfc
  have hfr1 : findFault fs1 (root ++ [d, n ++ ".refcount"]) = none := by
    rw [findFault_congr herrs1]; exact hfr
  have hlc1 : lookupFile fs1 (root ++ [d, n]) = some B := by
    rw [hfs1, lookupFile_insertFile_ne _ _ hne, lookupFile_insertFile_self]
  have hlr1 : lookupFile fs1 (root ++ [d, n ++ ".refcount"]) = some (toBE4 1) :=
    lookupFile_insertFile_self ..
  have hget : get_refcount fs1 root (H B) = .ok 1 := by
    have hg := get_refcount_present fs1 root (H B) d n (toBE4 1) hsplit hfr1 hlr1
      (by rw [toBE4_length])
    rwa [fromBE4_toBE4 (by omega)] at hg
  have hset : set_refcount fs1 root (H B) 0
      = (eraseFile fs1 (root ++ [d, n ++ ".refcount"]), .ok ()) :=
    set_refcount_zero fs1 root (H B) d n hsplit hfr1 (by rw [hlr1]; rfl)
  have hf2 : findFault (eraseFile fs1 (root ++ [d, n ++ ".refcount"]))
      (root ++ [d, n]) = none := by
    rw [findFault_congr (eraseFile_errs ..)]; exact hfc1
  have hl2 : lookupFile (eraseFile fs1 (root ++ [d, n ++ ".refcount"]))
      (root ++ [d, n]) = some B := by
    rw [lookupFile_eraseFile_ne _ hne]; exact hlc1
  have hrm : removeFile (eraseFile fs1 (root ++ [d, n ++ ".refcount"])) (root ++ [d, n])
      = (fs2, .ok ()) := by
    rw [hfs2]; simp [removeFile, hf2, hl2]
  have hdel : delete fs1 root (H B) = (fs2, .ok ()) := by
    unfold delete
    simp only [storage_file_path, hsplit, Option.map_some', hget]
    simp [hset, hrm]
  refine ⟨fs1, fs2, h1, hdel, ?_, ?_, ?_⟩
  · rw [hfs2, lookupFile_eraseFile_self]
  · rw [hfs2, lookupFile_eraseFile_ne _ hne.symm, lookupFile_eraseFile_self]
  · apply retrieve_data_none_spec fs2 root (H B) d n hsplit
    · rw [findFault_congr (show fs2.errs = fs.errs from by
        rw [hfs2, eraseFile_errs, eraseFile_errs, herrs1])]
      exact hfc
    · rw [hfs2, lookupFile_eraseFile_self]
    · rw [dirExists_congr (show fs2.dirs = fsd.dirs from by
        rw [hfs2, eraseFile_dirs, eraseFile_dirs, hfs1, insertFile_dirs, insertFile_dirs])]
      rw [hfsd, dirExists_create_dir fs (dir_ne_file root d n).symm]
      exact hdc

/-- C3 witness: store [1, 2, 3] once into the empty store, delete it, and
observe both files gone and retrieval returning none. -/
theorem full_lifecycle_witness :
    ∃ fs1 fs2 : FS,
      store_data (fun _ => "abcd") ⟨[], [], []⟩ ["r"] [1, 2, 3] = (fs1, .ok "abcd") ∧
      delete fs1 ["r"] "abcd" = (fs2, .ok ()) ∧
      lookupFile fs2 ["r", "ab", "cd"] = none ∧
      lookupFile fs2 ["r", "ab", "cd.refcount"] = none ∧
      retrieve_data fs2 ["r"] "abcd" = .ok none :=
  full_lifecycle (fun _ => "abcd") ⟨[], [], []⟩ ["r"] [1, 2, 3] "ab" "cd"
    (by decide) (by decide) (by decide) (by decide) (by decide) (by decide)
    (by decide) (by decide)

/-! ## Claim C7: delete ordering on the last reference -/

/-- C7: Delete ordering on the last reference — when `delete` reads
refcount 1, it first persists the decremented count by deleting the
refcount file and only then attempts to remove the content file; when
that removal fails (injected fault on the content path, or the content
file is missing), the failure is returned as a fatal error wrapped
"Unable to remove file" while the refcount remains persisted as 0 (the
refcount file is gone) and the content entry, if present, is left behind
untouched as an orphan. -/
theorem delete_last_ref_ordering (fs : FS) (root : Path) (key d n : String) (bs : Bytes)
    (hsplit : splitKey2 key = some (d, n))
    (hfr : findFault fs (root ++ [d, n ++ ".refcount"]) = none)
    (hlr : lookupFile fs (root ++ [d, n ++ ".refcount"]) = some bs)
    (hlen : 4 ≤ bs.length)
    (hone : fromBE4 bs = 1)
    (hdr : dirExists fs (root ++ [d, n ++ ".refcount"]) = false)
    (hfail : findFault fs (root ++ [d, n]) ≠ none ∨
      lookupFile fs (root ++ [d, n]) = none) :
    ∃ kk : IoeKind,
      delete fs root key
        = (eraseFile fs (root ++ [d, n ++ ".refcount"]),
            .error ⟨.io kk, "Unable to remove file"⟩) ∧
      get_refcount (eraseFile fs (root ++ [d, n ++ ".refcount"])) root key = .ok 0 ∧
      lookupFile (eraseFile fs (root ++ [d, n ++ ".refcount"])) (root ++ [d, n])
        = lookupFile fs (root ++ [d, n]) := by
  have hne : root ++ [d, n] ≠ root ++ [d, n ++ ".refcount"] := cpath_ne_rpath root d n
  have hget : get_refcount fs root key = .ok 1 := by
    have hg := get_refcount_present fs root key d n bs hsplit hfr hlr hlen
    rwa [hone] at hg
  have hset : set_refcount fs root key 0
      = (eraseFile fs (root ++ [d, n ++ ".refcount"]), .ok ()) :=
    set_refcount_zero fs root key d n hsplit hfr (by rw [hlr]; rfl)
  have hf' : findFault (eraseFile fs (root ++ [d, n ++ ".refcount"])) (root ++ [d, n])
      = findFault fs (root ++ [d, n]) := findFault_congr (eraseFile_errs ..) _
  have hl' : lookupFile (eraseFile fs (root ++ [d, n ++ ".refcount"])) (root ++ [d, n])
      = lookupFile fs (root ++ [d, n]) := lookupFile_eraseFile_ne _ hne
  have hzero : get_refcount (eraseFile fs (root ++ [d, n ++ ".refcount"])) root key
      = .ok 0 := by
    apply get_refcount_absent _ _ _ d n hsplit
    · rw [findFault_congr (eraseFile_errs ..)]; exact hfr
    · exact lookupFile_eraseFile_self ..
    · rw [dirExists_congr (eraseFile_dirs ..)]; exact hdr
  cases hff : findFault fs (root ++ [d, n]) with
  | some k =>
    refine ⟨k, ?_, hzero, hl'⟩
    have hrm : removeFile (eraseFile fs (root ++ [d, n ++ ".refcount"])) (root ++ [d, n])
        = (eraseFile fs (root ++ [d, n ++ ".refcount"]), .error k) := by
      simp [removeFile, hf', hff]
    unfold delete
    simp only [storage_file_path, hsplit, Option.map_some', hget]
    simp [hset, hrm]
  | none =>
    have hlnone : lookupFile fs (root ++ [d, n]) = none := by
      rcases hfail with hfa | hfa
      · exact absurd hff hfa
      · exact hfa
    refine ⟨.notFound, ?_, hzero, hl'⟩
    have hrm : removeFile (eraseFile fs (root ++ [d, n ++ ".refcount"])) (root ++ [d, n])
        = (eraseFile fs (root ++ [d, n ++ ".refcount"]), .error .notFound) := by
      simp [removeFile, hf', hff, hl', hlnone]
    unfold delete
    simp only [storage_file_path, hsplit, Option.map_some', hget]
    simp [hset, hrm]

/-- C7 witness: a state holding only a refcount record of 1 (the content
file is missing) — delete removes the refcount file, then fails to remove
the content file and returns the wrapped fatal error, leaving the
refcount persisted as 0. -/
theorem delete_last_ref_ordering_witness :
    ∃ kk : IoeKind,
      delete ⟨[(["r", "ab", "cd.refcount"], [0, 0, 0, 1])], [["r", "ab"]], []⟩
          ["r"] "abcd"
        = (eraseFile ⟨[(["r", "ab", "cd.refcount"], [0, 0, 0, 1])], [["r", "ab"]], []⟩
            ["r", "ab", "cd.refcount"],
            .error ⟨.io kk, "Unable to remove file"⟩) ∧
      get_refcount (eraseFile ⟨[(["r", "ab", "cd.refcount"], [0, 0, 0, 1])],
          [["r", "ab"]], []⟩ ["r", "ab", "cd.refcount"]) ["r"] "abcd" = .ok 0 ∧
      lookupFile (eraseFile ⟨[(["r", "ab", "cd.refcount"], [0, 0, 0, 1])],
          [["r", "ab"]], []⟩ ["r", "ab", "cd.refcount"]) ["r", "ab", "cd"]
        = lookupFile ⟨[(["r", "ab", "cd.refcount"], [0, 0, 0, 1])], [["r", "ab"]], []⟩
            ["r", "ab", "cd"] :=
  delete_last_ref_ordering ⟨[(["r", "ab", "cd.refcount"], [0, 0, 0, 1])],
    [["r", "ab"]], []⟩ ["r"] "abcd" "ab" "cd" [0, 0, 0, 1]
    (by decide) (by decide) (by decide) (by decide) (by decide) (by decide)
    (Or.inr (by decide))

/-! ## Claim C5: error propagation -/

/-- C5 counterexample: a permission-denied failure of the `fs::metadata`
probe on the content path is neither tolerated condition (a) nor (b), yet
`retrieve_data` is NOT made fatal by it — it silently returns the
success value `none`; and a failing metadata probe on the refcount path
is propagated by `get_refcount` WITHOUT any contextual message (the
`From<io::Error>` conversion leaves the message empty).  Both refute the
claim that every filesystem failure is wrapped with a contextual message
and that all non-tolerated failures are fatal. -/
theorem error_propagation_cex :
    metadata ⟨[], [], [(["r", "ab", "cd"], .permissionDenied)]⟩ ["r", "ab", "cd"]
        = .error .permissionDenied ∧
    retrieve_data ⟨[], [], [(["r", "ab", "cd"], .permissionDenied)]⟩ ["r"] "abcd"
        = .ok none ∧
    get_refcount ⟨[], [], [(["r", "ab", "cd.refcount"], .other)]⟩ ["r"] "abcd"
        = .error ⟨.io .other, ""⟩ := by
  refine ⟨rfl, by decide, by decide⟩

/-- C5 (amended): the two tolerated conditions hold as claimed — (a) a
shard directory that already exists does not abort `store`, and (b) a
truncated refcount record is read as count 0 — but the propagation story
has two further exceptions: `retrieve_data`/`retrieve_file` fold EVERY
probe failure (of any kind) into the success value `none`, and
`get_refcount` propagates a failing metadata probe without a contextual
message (empty message). -/
theorem error_propagation_amended :
    (∀ (fs : FS) (root : Path) (key d n : String) (bs : Bytes),
      splitKey2 key = some (d, n) →
      findFault fs (root ++ [d, n ++ ".refcount"]) = none →
      lookupFile fs (root ++ [d, n ++ ".refcount"]) = some bs →
      bs.length < 4 → get_refcount fs root key = .ok 0) ∧
    (∀ (fs : FS) (root : Path) (key d n : String) (k : IoeKind),
      splitKey2 key = some (d, n) →
      findFault fs (root ++ [d, n]) = some k →
      retrieve_data fs root key = .ok none ∧ retrieve_file fs root key = .ok none) ∧
    (∀ (fs : FS) (root : Path) (key d n : String) (k : IoeKind),
      splitKey2 key = some (d, n) →
      findFault fs (root ++ [d, n ++ ".refcount"]) = some k → k ≠ .notFound →
      get_refcount fs root key = .error ⟨.io k, ""⟩) ∧
    (∀ (H : HashFn) (fs : FS) (root : Path) (B : Bytes) (d n : String),
      splitKey2 (H B) = some (d, n) →
      findFault fs (root ++ [d]) = none →
      dirExists fs (root ++ [d]) = true →
      store H fs root (.buffer B) = storeContentAndCount fs root (.buffer B) (H B)) := by
  refine ⟨?_, ?_, ?_, ?_⟩
  · intro fs root key d n bs hsplit hf hl hlen
    have hlen' : ¬ 4 ≤ bs.length := by omega
    simp [get_refcount, storage_refcount_path, hsplit, metadata, hf, hl, hlen']
  · intro fs root key d n k hsplit hff
    constructor <;>
      simp [retrieve_data, retrieve_file, storage_file_path, hsplit, metadata, hff]
  · intro fs root key d n k hsplit hff hk
    simp [get_refcount, storage_refcount_path, hsplit, metadata, hff, hk]
  · intro H fs root B d n hsplit hfd hde
    rw [store_step_dir H fs root B d n hsplit hfd]
    have : (create_dir fs (root ++ [d])).1 = fs := by
      simp [create_dir, hfd, hde]
    rw [this]

/-- C5 amended witness: concrete instances of all four amended facts — a
2-byte refcount record reads as 0; a faulted content path makes both
retrievals return none; a faulted refcount path propagates an
empty-message error; and a pre-existing shard directory does not abort
`store`. -/
theorem error_propagation_amended_witness :
    get_refcount ⟨[(["r", "ab", "cd.refcount"], [0, 0])], [], []⟩ ["r"] "abcd"
        = .ok 0 ∧
    (retrieve_data ⟨[], [], [(["r", "ab", "cd"], .other)]⟩ ["r"] "abcd" = .ok none ∧
      retrieve_file ⟨[], [], [(["r", "ab", "cd"], .other)]⟩ ["r"] "abcd" = .ok none) ∧
    get_refcount ⟨[], [], [(["r", "ab", "cd.refcount"], .permissionDenied)]⟩
        ["r"] "abcd" = .error ⟨.io .permissionDenied, ""⟩ ∧
    store (fun _ => "abcd") ⟨[], [["r", "ab"]], []⟩ ["r"] (.buffer [7])
        = storeContentAndCount ⟨[], [["r", "ab"]], []⟩ ["r"] (.buffer [7]) "abcd" :=
  ⟨error_propagation_amended.1 ⟨[(["r", "ab", "cd.refcount"], [0, 0])], [], []⟩
      ["r"] "abcd" "ab" "cd" [0, 0] (by decide) (by decide) (by decide) (by decide),
    error_propagation_amended.2.1 ⟨[], [], [(["r", "ab", "cd"], .other)]⟩
      ["r"] "abcd" "ab" "cd" .other (by decide) (by decide),
    error_propagation_amended.2.2.1 ⟨[], [], [(["r", "ab", "cd.refcount"],
      .permissionDenied)]⟩ ["r"] "abcd" "ab" "cd" .permissionDenied
      (by decide) (by decide) (by decide),
    error_propagation_amended.2.2.2 (fun _ => "abcd") ⟨[], [["r", "ab"]], []⟩
      ["r"] [7] "ab" "cd" (by decide) (by decide) (by decide)⟩

/-! ## Claim C10: a present, complete refcount record is never 0 -/

theorem refcountInvariant_congr {fs fs' : FS} (h : fs'.files = fs.files)
    (hinv : refcountInvariant fs) : refcountInvariant fs' := by
  intro e he
  exact hinv e (h ▸ he)

theorem refcountInvariant_insert {fs : FS} {p : Path} {bs : Bytes}
    (hv : isRefcountName p = true → 4 ≤ bs.length → 1 ≤ fromBE4 bs)
    (hinv : refcountInvariant fs) : refcountInvariant (insertFile fs p bs) := by
  intro e he hr hlen
  rcases List.mem_cons.mp he with hea | heb
  · subst hea; exact hv hr hlen
  · exact hinv e (List.mem_of_mem_filter heb) hr hlen

theorem refcountInvariant_erase {fs : FS} {p : Path}
    (hinv : refcountInvariant fs) : refcountInvariant (eraseFile fs p) := by
  intro e he
  exact hinv e (List.mem_of_mem_filter he)

theorem splitKey2_snd_chars {key d n : String} (h : splitKey2 key = some (d, n)) :
    ∀ c ∈ n.data, c ∈ key.data := by
  intro c hc
  unfold splitKey2 at h
  cases hk : key.toList with
  | nil =>
    simp only [hk] at h
    exact absurd h (by simp)
  | cons c0 rest =>
    have hkd : key.data = c0 :: rest := hk
    rw [hkd]
    cases rest with
    | nil =>
      simp only [hk] at h
      by_cases h2 : c0.utf8Size = 2
      · rw [if_pos h2] at h
        simp at h
        have hn : n.data = [] := by rw [← h.2]
        rw [hn] at hc
        simp at hc
      · rw [if_neg h2] at h
        by_cases h1 : c0.utf8Size = 1
        · rw [if_pos h1] at h
          simp at h
        · rw [if_neg h1] at h
          simp at h
    | cons c2 rest2 =>
      simp only [hk] at h
      by_cases h2 : c0.utf8Size = 2
      · rw [if_pos h2] at h
        simp at h
        have hn : n.data = c2 :: rest2 := by rw [← h.2]
        exact List.mem_cons_of_mem _ (hn ▸ hc)
      · rw [if_neg h2] at h
        by_cases h1 : c0.utf8Size = 1
        · rw [if_pos h1] at h
          by_cases hc2 : c2.utf8Size = 1
          · rw [if_pos hc2] at h
            simp at h
            have hn : n.data = rest2 := by rw [← h.2]
            exact List.mem_cons_of_mem _ (List.mem_cons_of_mem _ (hn ▸ hc))
          · rw [if_neg hc2] at h
            simp at h
        · rw [if_neg h1] at h
          simp at h

theorem isRefcountName_false_of_dotFree {root : Path} {d n : String}
    (hdot : '.' ∉ n.data) : isRefcountName (root ++ [d, n]) = false := by
  have hlast : (root ++ [d, n]).getLast? = some n := by
    have : root ++ [d, n] = (root ++ [d]) ++ [n] := by simp
    rw [this, List.getLast?_concat]
  unfold isRefcountName
  rw [hlast]
  rw [Bool.eq_false_iff]
  intro htrue
  have hsuf : ".refcount".toList <:+ n.toList := List.isSuffixOf_iff_suffix.mp htrue
  obtain ⟨t, ht⟩ := hsuf
  apply hdot
  show '.' ∈ n.data
  have hmem : '.' ∈ t ++ ".refcount".toList := List.mem_append_right t (by decide)
  rw [ht] at hmem
  exact hmem

theorem fromBE4_lt_of_wf {bs : Bytes} (h : ∀ b ∈ bs, b < 256) :
    fromBE4 bs < 4294967296 := by
  unfold fromBE4
  split
  · rename_i b0 b1 b2 b3 tail
    have h0 := h b0 (by simp)
    have h1 := h b1 (by simp)
    have h2 := h b2 (by simp)
    have h3 := h b3 (by simp)
    omega
  · omega

theorem lookupFile_mem {fs : FS} {p : Path} {bs : Bytes}
    (h : lookupFile fs p = some bs) : (p, bs) ∈ fs.files := by
  unfold lookupFile at h
  cases hf : fs.files.find? (fun e => e.1 == p) with
  | none => rw [hf] at h; simp at h
  | some e =>
    rw [hf] at h
    simp at h
    have hmem := List.mem_of_find?_eq_some hf
    have hpred := List.find?_some hf
    have hp : e.1 = p := by simpa using hpred
    have : e = (p, bs) := by
      cases e
      simp only at hp h
      rw [hp, h]
    rw [← this]
    exact hmem

theorem storeBumpRefcount_ok_inv {fs fs' : FS} {root : Path} {key d n k : String}
    (hsplit : splitKey2 key = some (d, n)) (hinv : refcountInvariant fs)
    (h : storeBumpRefcount fs root key = (fs', .ok k)) : refcountInvariant fs' := by
  rcases (storeBumpRefcount_ok_state hsplit h).2 with ⟨m, h1m, hmlt, hst⟩ | hst <;>
    subst hst
  · refine refcountInvariant_insert ?_ hinv
    intro _ _
    rw [fromBE4_toBE4 hmlt]
    exact h1m
  · exact refcountInvariant_erase hinv

theorem storableStore_ok_state {fs fs1 : FS} {input : StoreInput} {dest : Path} {u : Unit}
    (h : storableStore fs input dest = (fs1, .ok u)) :
    ∃ bs, fs1 = insertFile fs dest bs := by
  cases input with
  | buffer B => exact ⟨B, (storableStore_buffer_ok h).1⟩
  | fileRef p =>
    unfold storableStore at h
    split at h
    · next b heq => simp at heq
    · next q heq =>
      injection heq with hq
      subst hq
      split at h
      · next heq2 =>
        simp at h
        obtain ⟨bs, _, hst⟩ := copyFile_ok_state heq2
        exact ⟨bs, by rw [← h]; exact hst⟩
      · simp at h

theorem storeContentAndCount_ok_inv {fs fs' : FS} {root : Path} {input : StoreInput}
    {key d n k : String}
    (hsplit : splitKey2 key = some (d, n)) (hdot : '.' ∉ n.data)
    (hinv : refcountInvariant fs)
    (h : storeContentAndCount fs root input key = (fs', .ok k)) :
    refcountInvariant fs' := by
  unfold storeContentAndCount at h
  simp only [storage_file_path, hsplit, Option.map_some'] at h
  split at h
  · exact storeBumpRefcount_ok_inv hsplit hinv h
  · split at h
    · split at h
      · next heq =>
        obtain ⟨bs, hst⟩ := storableStore_ok_state heq
        subst hst
        have hinvX : refcountInvariant (insertFile fs (root ++ [d, n]) bs) := by
          refine refcountInvariant_insert ?_ hinv
          rw [isRefcountName_false_of_dotFree hdot]
          intro hfalse
          simp at hfalse
        exact storeBumpRefcount_ok_inv hsplit hinvX h
      · simp at h
      · simp at h
    · simp at h

theorem hashInput_ok_range {H : HashFn} {fs : FS} {input : StoreInput} {key : String}
    (h : hashInput H fs input = .ok key) : ∃ b, key = H b := by
  cases input with
  | buffer B =>
    have h2 : PResult.ok (H B) = PResult.ok key := h
    injection h2 with h3
    exact ⟨B, h3.symm⟩
  | fileRef p =>
    unfold hashInput at h
    split at h
    · next b heq => exact absurd heq (by simp)
    · next q heq =>
      injection heq with hq
      subst hq
      split at h
      · simp at h
      · split at h
        · simp at h
        · next content heq2 =>
          rw [absorbLoop_eq, List.nil_append] at h
          injection h with h2
          exact ⟨content, h2.symm⟩

theorem store_ok_inv {H : HashFn} (hH : dotFreeHash H) {fs fs' : FS} {root : Path}
    {input : StoreInput} {k : String}
    (hinv : refcountInvariant fs)
    (h : store H fs root input = (fs', .ok k)) : refcountInvariant fs' := by
  unfold store at h
  split at h
  · simp at h
  · simp at h
  · next key heq =>
    obtain ⟨b, hb⟩ := hashInput_ok_range heq
    cases hs : splitKey2 key with
    | none => rw [storage_file_dir, hs] at h; simp at h
    | some q =>
      obtain ⟨d, n⟩ := q
      have hdot : '.' ∉ n.data := by
        intro hc
        exact hH b (by rw [← hb]; exact splitKey2_snd_chars hs '.' hc)
      simp only [storage_file_dir, hs, Option.map_some'] at h
      split at h
      · next fsd u heqd =>
        have h1 : (create_dir fs (root ++ [d])).1 = fsd := by rw [heqd]
        have hfiles : fsd.files = fs.files := by rw [← h1, create_dir_files]
        exact storeContentAndCount_ok_inv hs hdot
          (refcountInvariant_congr hfiles hinv) h
      · next fsd k' heqd =>
        have hfiles : fsd.files = fs.files := by
          have h1 : (create_dir fs (root ++ [d])).1 = fsd := by rw [heqd]
          rw [← h1, create_dir_files]
        split at h
        · exact storeContentAndCount_ok_inv hs hdot
            (refcountInvariant_congr hfiles hinv) h
        · simp at h

theorem delete_ok_inv {fs fs' : FS} {root : Path} {key : String} {u : Unit}
    (hinv : refcountInvariant fs) (hwf : wfBytes fs)
    (h : delete fs root key = (fs', .ok u)) : refcountInvariant fs' := by
  unfold delete at h
  cases hs : splitKey2 key with
  | none => rw [storage_file_path, hs] at h; simp at h
  | some q =>
    obtain ⟨d, n⟩ := q
    simp only [storage_file_path, hs, Option.map_some'] at h
    split at h
    · simp at h
    · simp at h
    · next rc heq =>
      split at h
      · simp at h
        rw [← h]
        exact hinv
      · next hrc =>
        split at h
        · simp at h
        · simp at h
        · next fs1 a heq2 =>
          have hlt : rc < 4294967296 := by
            obtain ⟨bs, hbs, hlen, hval, _⟩ := get_refcount_ok_pos hs heq (by omega)
            have hmem := lookupFile_mem hbs
            have hb := @fromBE4_lt_of_wf bs (fun b hb => hwf _ hmem b hb)
            omega
          have hinv1 : refcountInvariant fs1 := by
            rcases set_refcount_ok_state hs heq2 with ⟨hm, hst⟩ | hst <;> subst hst
            · refine refcountInvariant_insert ?_ hinv
              intro _ _
              rw [fromBE4_toBE4 (by omega)]
              exact hm
            · exact refcountInvariant_erase hinv
          split at h
          · split at h
            · next fs2 a2 heq3 =>
              simp at h
              rw [← h]
              rw [removeFile_ok_state heq3]
              exact refcountInvariant_erase hinv1
            · simp at h
          · simp at h
            rw [← h]
            exact hinv1

/-- C10: Implicit invariant — starting from any state satisfying it (all
stored bytes are octets and every present, complete refcount record is at
least 1), every successful public operation (`store_data`, `store_file`,
`delete`) preserves the property that any refcount file on disk holds a
big-endian value of at least 1: `set_refcount` deletes the file at count
0 and never writes a zero record. -/
theorem refcount_record_never_zero (H : HashFn) (fs : FS) (root : Path)
    (hH : dotFreeHash H) (hinv : refcountInvariant fs) (hwf : wfBytes fs) :
    (∀ (B : Bytes) (fs' : FS) (k : String),
      store_data H fs root B = (fs', .ok k) → refcountInvariant fs') ∧
    (∀ (p : Path) (fs' : FS) (k : String),
      store_file H fs root p = (fs', .ok k) → refcountInvariant fs') ∧
    (∀ (key : String) (fs' : FS) (u : Unit),
      delete fs root key = (fs', .ok u) → refcountInvariant fs') :=
  ⟨fun _ _ _ h => store_ok_inv hH hinv h,
    fun _ _ _ h => store_ok_inv hH hinv h,
    fun _ _ _ h => delete_ok_inv hinv hwf h⟩

/-- C10 witness: the state after a concrete successful `store_data` into
the empty store satisfies the invariant (its refcount record holds 1). -/
theorem refcount_record_never_zero_witness :
    refcountInvariant ⟨[(["r", "ab", "cd.refcount"], [0, 0, 0, 1]),
      (["r", "ab", "cd"], [1, 2, 3])], [["r", "ab"]], []⟩ :=
  (refcount_record_never_zero (fun _ => "abcd") ⟨[], [], []⟩ ["r"]
      (by intro b; show ('.' : Char) ∉ ("abcd" : String).toList; decide)
      (by intro e he; simp at he) (by intro e he; simp at he)).1
    [1, 2, 3]
    ⟨[(["r", "ab", "cd.refcount"], [0, 0, 0, 1]),
      (["r", "ab", "cd"], [1, 2, 3])], [["r", "ab"]], []⟩
    "abcd" (by decide)

end Filestore
